import Mathlib

/-!
# The per-peer relay of the ICE adapter (`src/PeerRelay.cpp`, `src/Timer.cpp`)

A shallow embedding of `faf::PeerRelay` and `faf::Timer`.

* The relay object is the record `PeerRelay`; every member function is a function from the
  relay (and the inputs the call reads from its environment) to the new relay and the list of
  calls it made on its collaborators (`Effect`), in program order.
* Smart pointers are `Option`s; calling through a null pointer is the fault
  `Fault.nullDereference`, so a function that can do so returns `Except Fault _`.
* `std::chrono::steady_clock` time points and durations are integers (clock ticks).
* `PeerRelay.h` is not among the sources: the members are named as the `.cpp` file uses them.
-/

namespace faf

/-! ## Bytes and the keepalive frames -/

/-- One `uint8_t`. -/
abbrev Byte := Fin 256

/-- A `uint8_t` array initialised from a string literal: the characters of the literal followed
by the terminating NUL (`static constexpr uint8_t X[] = "..."`). -/
def cStringArray (s : String) : List Byte :=
  s.toList.map (fun c => Fin.ofNat c.toNat) ++ [0]

/-- `static constexpr uint8_t PingMessage[] = "ICEADAPTERPING";` -/
def PingMessage : List Byte := cStringArray "ICEADAPTERPING"

/-- `static constexpr uint8_t PongMessage[] = "ICEADAPTERPONG";` -/
def PongMessage : List Byte := cStringArray "ICEADAPTERPONG"

/-- `sizeof` of a byte array: its number of elements. -/
def sizeof (a : List Byte) : Nat := a.length

/-- `std::equal(first1, last1, first2)`: the first range, given as a list, is compared element by
element with the range starting at `first2`. Running off the end of the second range is undefined
in C++; the callers check the size first, so that case never arises and is `false` here. -/
def std_equal : List Byte → List Byte → Bool
  | [], _ => true
  | _ :: _, [] => false
  | a :: as, b :: bs => a == b && std_equal as bs

/-! ## Collaborators -/

/-- Severity of a log record (`FAF_LOG_*`); the text of the record is not modelled. -/
inductive LogLevel
  | trace | debug | info | warn | error
  deriving DecidableEq, Repr

/-- `rtc::SocketAddress`. -/
structure SocketAddress where
  host : String
  port : Nat
  deriving DecidableEq, Repr

/-- The fields of `webrtc::DataChannelInit` that `_createOffer` sets. -/
structure DataChannelInit where
  ordered : Bool
  maxRetransmits : Int
  deriving DecidableEq, Repr

/-- The fields of `RTCOfferAnswerOptions` that `_createOffer` sets. -/
structure RTCOfferAnswerOptions where
  offer_to_receive_audio : Int
  offer_to_receive_video : Int
  ice_restart : Bool
  deriving DecidableEq, Repr

/-- A data channel handle: the label and options it was created with. -/
structure DataChannel where
  label : String
  init : DataChannelInit
  deriving DecidableEq, Repr

/-- A peer connection handle: the ICE servers of the configuration it was created with. -/
structure PeerConnection where
  servers : List String
  deriving DecidableEq, Repr

/-- One call made by the relay on a collaborator: the log, the local UDP socket, the ICE stack,
the embedding application's callbacks, the thread's message queue. The candidate, sdp and
data-channel-open callbacks are invoked from the observers of `PeerRelayObservers.h`, which is
not among the sources; no function of `PeerRelay.cpp` invokes them. -/
inductive Effect
  | log (level : LogLevel)
  | socketBind (addr : SocketAddress)
  | createPeerConnection (servers : List String)
  | createDataChannel (label : String) (init : DataChannelInit)
  | registerObserver
  | createOffer (options : RTCOfferAnswerOptions)
  | getStats
  | stateCallback (state : String)
  | connectedCallback (connected : Bool)
  | dataChannelSend (data : List Byte) (binary : Bool)
  | udpSendTo (data : List Byte) (addr : SocketAddress)
  | threadClear
  | threadPostDelayed (ms : Int)
  | unregisterObserver
  | peerConnectionClose
  | candidateCallback (message : String)
  | sdpCallback (message : String)
  | dataChannelOpenCallback
  deriving DecidableEq, Repr

/-- Why a call did not return. -/
inductive Fault
  | nullDereference
  deriving DecidableEq, Repr

deriving instance DecidableEq for Except

/-- What a call reads from its environment: the value of `std::chrono::steady_clock::now()` and
whether `CreateDataChannel` hands out a channel (it may return null). -/
structure Env where
  now : Int
  dataChannelCreated : Bool
  deriving DecidableEq, Repr

/-- The local UDP socket as the read handler sees it: the datagram waiting to be read, if any. -/
structure AsyncSocket where
  pending : Option (List Byte)
  deriving DecidableEq, Repr

/-- `socket->Recv(buffer, capacity, nullptr)`: the returned length and the bytes written to the
buffer. Without a datagram the call fails with `-1`; a datagram longer than the buffer is cut. -/
def AsyncSocket.Recv (socket : AsyncSocket) (capacity : Nat) : Int × List Byte :=
  match socket.pending with
  | none => (-1, [])
  | some d => (((d.take capacity).length : Int), d.take capacity)

/-! ## `Timer` (`src/Timer.cpp`) -/

/-- `faf::Timer`: the interval and whether a callback is bound. -/
structure Timer where
  _interval : Int
  _callback : Bool
  deriving DecidableEq, Repr

/-- The constructor `Timer::Timer()`. -/
def Timer.create : Timer := { _interval := 0, _callback := false }

/-- `Timer::stop()`. -/
def Timer.stop (t : Timer) : Timer × List Effect :=
  ({ t with _callback := false }, [Effect.threadClear])

/-- `Timer::started()`. -/
def Timer.started (t : Timer) : Bool := t._callback

/-- `Timer::start(intervalMs, callback)`. -/
def Timer.start (t : Timer) (intervalMs : Int) : Timer × List Effect :=
  let (t1, e1) := t.stop
  let t2 := { t1 with _interval := intervalMs }
  let t3 := { t2 with _callback := true }
  (t3, e1 ++ [Effect.threadClear, Effect.threadPostDelayed t3._interval])

/-! ## `PeerRelay` (`src/PeerRelay.cpp`) -/

/-- The callbacks of the embedding application that `PeerRelay.cpp` invokes: whether each is set. -/
structure Callbacks where
  stateCallback : Bool
  connectedCallback : Bool
  deriving DecidableEq, Repr

/-- The members of `faf::PeerRelay` that `PeerRelay.cpp` reads or writes. `_readBufferSize` is
`_readBuffer.size()`; the buffer itself is scratch storage, written by `Recv` and read in the same
call, and is the value `AsyncSocket.Recv` returns. `_missedPings` is counted without a bound: the
type it is declared with is in `PeerRelay.h`. -/
structure PeerRelay where
  _iceServerList : List String
  _remotePlayerId : Int
  _remotePlayerLogin : String
  _isOfferer : Bool
  _gameUdpAddress : SocketAddress
  _localUdpSocket : Bool
  _localUdpSocketPort : Int
  _callbacks : Callbacks
  _peerConnection : Option PeerConnection
  _dataChannel : Option DataChannel
  _connectStartTime : Int
  _connectDuration : Int
  _iceState : String
  _isConnected : Bool
  _closing : Bool
  _missedPings : Nat
  _lastSentPingTime : Option Int
  _lastReceivedPongTime : Option Int
  _offererConnectionCheckTimer : Timer
  _connectionCheckIntervalMs : Int
  _readBufferSize : Nat
  deriving DecidableEq, Repr

namespace PeerRelay

/-- `PeerRelay::isConnected()`. -/
def isConnected (r : PeerRelay) : Bool := r._isConnected

/-- `PeerRelay::_setConnected(connected)`. -/
def _setConnected (r : PeerRelay) (env : Env) (connected : Bool) : PeerRelay × List Effect :=
  if connected != r._isConnected then
    let r1 := { r with _isConnected := connected }
    let e1 := if r1._callbacks.connectedCallback then [Effect.connectedCallback connected] else []
    if connected then
      let r2 := { r1 with _connectDuration := env.now - r1._connectStartTime }
      ({ r2 with _missedPings := 0, _lastSentPingTime := none, _lastReceivedPongTime := none },
        e1 ++ [Effect.log LogLevel.info])
    else
      (r1, e1 ++ [Effect.log LogLevel.info])
  else
    (r, [])

/-- `PeerRelay::_onRemoteMessage(data, size)`; `data` is the `size` bytes of the message. -/
def _onRemoteMessage (r : PeerRelay) (env : Env) (data : List Byte) : PeerRelay × List Effect :=
  if r._isOfferer && data.length == sizeof PongMessage &&
      std_equal (data.take (sizeof PongMessage)) PongMessage then
    ({ r with _lastReceivedPongTime := some env.now }, [])
  else if !r._isOfferer && data.length == sizeof PingMessage &&
      std_equal (data.take (sizeof PingMessage)) PingMessage && r._dataChannel.isSome then
    (r, [Effect.dataChannelSend PongMessage true])
  else if r._localUdpSocket then
    (r, [Effect.udpSendTo data r._gameUdpAddress])
  else
    (r, [])

/-- `PeerRelay::_createOffer()`. The data channel is created through `_peerConnection` and the
observer registered through the returned `_dataChannel`; `CreateOffer` is called through
`_peerConnection`: each is a fault when the pointer is null. -/
def _createOffer (r : PeerRelay) (env : Env) : Except Fault (PeerRelay × List Effect) :=
  if r._isOfferer then
    let channel : Except Fault (PeerRelay × Bool × List Effect) :=
      match r._dataChannel with
      | some _ => Except.ok (r, true, [])
      | none =>
        match r._peerConnection with
        | none => Except.error Fault.nullDereference
        | some _ =>
          let dataChannelInit : DataChannelInit := { ordered := false, maxRetransmits := 0 }
          if env.dataChannelCreated then
            Except.ok ({ r with _dataChannel := some { label := "faf", init := dataChannelInit } },
              false,
              [Effect.createDataChannel "faf" dataChannelInit, Effect.registerObserver])
          else
            Except.error Fault.nullDereference
    match channel with
    | Except.error f => Except.error f
    | Except.ok (r1, reconnect, e1) =>
      match r1._peerConnection with
      | none => Except.error Fault.nullDereference
      | some _ =>
        let options : RTCOfferAnswerOptions :=
          { offer_to_receive_audio := 0, offer_to_receive_video := 0, ice_restart := reconnect }
        let (t, e2) := r1._offererConnectionCheckTimer.start r1._connectionCheckIntervalMs
        Except.ok ({ r1 with _offererConnectionCheckTimer := t },
          e1 ++ [Effect.createOffer options] ++ e2)
  else
    Except.ok (r, [])

/-- `PeerRelay::_setIceState(state)`. -/
def _setIceState (r : PeerRelay) (env : Env) (state : String) :
    Except Fault (PeerRelay × List Effect) :=
  let e0 := [Effect.log LogLevel.debug]
  let r0 := { r with _iceState := state }
  if r0._closing then
    Except.ok (r0, e0)
  else
    let (r1, e1) :=
      if r0._iceState == "connected" || r0._iceState == "completed" then
        r0._setConnected env true
      else
        r0._setConnected env false
    let e2 := if !r1._closing && r1._peerConnection.isSome then [Effect.getStats] else []
    let e3 := if r1._callbacks.stateCallback then [Effect.stateCallback r1._iceState] else []
    if r1._isOfferer then
      if r1._iceState == "failed" || r1._iceState == "disconnected" ||
          r1._iceState == "closed" then
        match r1._createOffer env with
        | Except.error f => Except.error f
        | Except.ok (r2, e4) =>
          Except.ok (r2, e0 ++ e1 ++ e2 ++ e3 ++ [Effect.log LogLevel.warn] ++ e4)
      else
        Except.ok (r1, e0 ++ e1 ++ e2 ++ e3)
    else
      Except.ok (r1, e0 ++ e1 ++ e2 ++ e3)

/-- `PeerRelay::_onPeerdataFromGame(socket)`. -/
def _onPeerdataFromGame (r : PeerRelay) (socket : AsyncSocket) : PeerRelay × List Effect :=
  let (msgLength, readBuffer) := socket.Recv r._readBufferSize
  if !r._isConnected then
    (r, [Effect.log LogLevel.trace])
  else if decide (msgLength > 0) && r._dataChannel.isSome then
    (r, [Effect.dataChannelSend (readBuffer.take msgLength.toNat) true])
  else
    (r, [])

/-- Ticks of `std::chrono::steady_clock` in one second (its period is a nanosecond). -/
def steadyClockTicksPerSecond : Int := 1000000000

/-- `std::chrono::duration_cast<std::chrono::seconds>(d).count()`: division truncating
towards zero. -/
def durationCastSeconds (d : Int) : Int := Int.tdiv d steadyClockTicksPerSecond

/-- `operator>` of two `std::optional` time points. -/
def optionalGreater : Option Int → Option Int → Bool
  | none, _ => false
  | some _, none => true
  | some a, some b => decide (a > b)

/-- `PeerRelay::_checkConnection()`, the liveness tick. -/
def _checkConnection (r : PeerRelay) (env : Env) : Except Fault (PeerRelay × List Effect) :=
  if r._isOfferer then
    if !r.isConnected then
      match r._createOffer env with
      | Except.error f => Except.error f
      | Except.ok (r1, e1) => Except.ok (r1, [Effect.log LogLevel.info] ++ e1)
    else
      let missed : Except Fault (PeerRelay × List Effect) :=
        if r._lastSentPingTime.isSome && !r._lastReceivedPongTime.isSome then
          let r1 := { r with _missedPings := r._missedPings + 1 }
          if r1._missedPings == 2 then
            match r1._createOffer env with
            | Except.error f => Except.error f
            | Except.ok (r2, e2) => Except.ok (r2, [Effect.log LogLevel.info] ++ e2)
          else
            Except.ok (r1, [])
        else
          Except.ok (r, [])
      match missed with
      | Except.error f => Except.error f
      | Except.ok (r2, e2) =>
        let late : Except Fault (PeerRelay × List Effect) :=
          if r2._lastSentPingTime.isSome && r2._lastReceivedPongTime.isSome &&
              optionalGreater r2._lastSentPingTime r2._lastReceivedPongTime then
            let pingDurationSeconds :=
              durationCastSeconds
                (r2._lastSentPingTime.getD 0 - r2._lastReceivedPongTime.getD 0)
            if decide (pingDurationSeconds >= 15) then
              match r2._createOffer env with
              | Except.error f => Except.error f
              | Except.ok (r3, e3) => Except.ok (r3, [Effect.log LogLevel.info] ++ e3)
            else
              Except.ok (r2, [])
          else
            Except.ok (r2, [])
        match late with
        | Except.error f => Except.error f
        | Except.ok (r3, e3) =>
          if r3._dataChannel.isSome then
            Except.ok ({ r3 with _lastSentPingTime := some env.now,
                                 _lastReceivedPongTime := none },
              e2 ++ e3 ++ [Effect.dataChannelSend PingMessage true])
          else
            Except.ok (r3, e2 ++ e3)
  else
    Except.ok (r, [])

end PeerRelay

/-- `PeerRelay::Options`, as the constructor reads it. -/
structure Options where
  iceServers : List String
  remotePlayerId : Int
  remotePlayerLogin : String
  isOfferer : Bool
  gameUdpPort : Nat
  deriving DecidableEq, Repr

/-- Modelled from the spec: the member declarations of `PeerRelay.h`, which is not among the
sources. The check interval, the size of the read buffer and the initial ICE state string are
taken as given; the other members start as the spec's data model has them (not connected, not
closing, no missed pings, no ping or pong time, no data channel, a zero connect duration). -/
structure Declared where
  _connectionCheckIntervalMs : Int
  _readBufferSize : Nat
  _iceState : String
  deriving DecidableEq, Repr

/-- What the constructor reads from its environment: whether `CreateAsyncSocket` and
`CreatePeerConnection` hand out an object, the result of `Bind`, the port of the bound socket,
and the clock and data channel of `Env`. -/
structure ConstructionEnv where
  socketCreated : Bool
  bindResult : Int
  localPort : Int
  peerConnectionCreated : Bool
  env : Env
  deriving DecidableEq, Repr

/-- The constructor `PeerRelay::PeerRelay(options, callbacks, pcfactory)`. -/
def PeerRelay.construct (decl : Declared) (options : Options) (callbacks : Callbacks)
    (cenv : ConstructionEnv) : Except Fault (PeerRelay × List Effect) :=
  let r0 : PeerRelay :=
    { _iceServerList := options.iceServers
      _remotePlayerId := options.remotePlayerId
      _remotePlayerLogin := options.remotePlayerLogin
      _isOfferer := options.isOfferer
      _gameUdpAddress := { host := "127.0.0.1", port := options.gameUdpPort }
      _localUdpSocket := cenv.socketCreated
      _localUdpSocketPort := 0
      _callbacks := callbacks
      _peerConnection := none
      _dataChannel := none
      _connectStartTime := 0
      _connectDuration := 0
      _iceState := decl._iceState
      _isConnected := false
      _closing := false
      _missedPings := 0
      _lastSentPingTime := none
      _lastReceivedPongTime := none
      _offererConnectionCheckTimer := Timer.create
      _connectionCheckIntervalMs := decl._connectionCheckIntervalMs
      _readBufferSize := decl._readBufferSize }
  if !r0._localUdpSocket then
    Except.error Fault.nullDereference
  else
    let e1 := [Effect.socketBind { host := "127.0.0.1", port := 0 }] ++
      (if cenv.bindResult != 0 then [Effect.log LogLevel.error] else [])
    let r1 := { r0 with _localUdpSocketPort := cenv.localPort }
    let e2 := [Effect.log LogLevel.info]
    let r2 := { r1 with _connectStartTime := cenv.env.now }
    let r3 := { r2 with _peerConnection :=
      if cenv.peerConnectionCreated then some { servers := r2._iceServerList } else none }
    let e3 := [Effect.createPeerConnection r2._iceServerList] ++
      (if !r3._peerConnection.isSome then [Effect.log LogLevel.error] else [])
    if r3._isOfferer then
      match r3._createOffer cenv.env with
      | Except.error f => Except.error f
      | Except.ok (r4, e4) => Except.ok (r4, e1 ++ e2 ++ e3 ++ e4)
    else
      Except.ok (r3, e1 ++ e2 ++ e3)

/-! ## Runs

Every operation on one relay runs to completion on the relay's thread, one after the other. -/

/-- The events the relay handles after construction. -/
inductive Event
  | iceState (state : String)
  | checkConnection
  | remoteMessage (data : List Byte)
  | peerdataFromGame (socket : AsyncSocket)
  deriving DecidableEq, Repr

/-- The handler of one event. -/
def PeerRelay.handle (r : PeerRelay) (env : Env) : Event → Except Fault (PeerRelay × List Effect)
  | Event.iceState state => r._setIceState env state
  | Event.checkConnection => r._checkConnection env
  | Event.remoteMessage data => Except.ok (r._onRemoteMessage env data)
  | Event.peerdataFromGame socket => Except.ok (r._onPeerdataFromGame socket)

/-- A sequence of events, each with the environment its handler sees, handled in order. -/
def PeerRelay.run : PeerRelay → List (Env × Event) → Except Fault (PeerRelay × List Effect)
  | r, [] => Except.ok (r, [])
  | r, (env, ev) :: rest =>
    match r.handle env ev with
    | Except.error f => Except.error f
    | Except.ok (r1, e1) =>
      match PeerRelay.run r1 rest with
      | Except.error f => Except.error f
      | Except.ok (r2, e2) => Except.ok (r2, e1 ++ e2)

/-- Construction followed by a sequence of events. -/
def PeerRelay.life (decl : Declared) (options : Options) (callbacks : Callbacks)
    (cenv : ConstructionEnv) (events : List (Env × Event)) :
    Except Fault (PeerRelay × List Effect) :=
  match PeerRelay.construct decl options callbacks cenv with
  | Except.error f => Except.error f
  | Except.ok (r0, e0) =>
    match r0.run events with
    | Except.error f => Except.error f
    | Except.ok (r1, e1) => Except.ok (r1, e0 ++ e1)

end faf

/-! ## Reading a list of calls -/

namespace faf

/-- The call is a `SendTo` on the local UDP socket. -/
def Effect.isUdpSend : Effect → Bool
  | Effect.udpSendTo _ _ => true
  | _ => false

/-- The call is a `Send` on the data channel. -/
def Effect.isDataChannelSend : Effect → Bool
  | Effect.dataChannelSend _ _ => true
  | _ => false

/-- The call is a `CreateOffer` on the peer connection. -/
def Effect.isCreateOffer : Effect → Bool
  | Effect.createOffer _ => true
  | _ => false

/-- The call is a `CreateDataChannel` on the peer connection. -/
def Effect.isCreateDataChannel : Effect → Bool
  | Effect.createDataChannel _ _ => true
  | _ => false

/-- The call posts a delayed message for the timer (`Timer::start` does, and so does the rearm
of `Timer::OnMessage`). -/
def Effect.isThreadPostDelayed : Effect → Bool
  | Effect.threadPostDelayed _ => true
  | _ => false

end faf

/-! ## Further operations -/

namespace faf

/-- `Timer::OnMessage(msg)` of the relay's `_offererConnectionCheckTimer`. The only callback the
relay ever binds is `_checkConnection` on itself, so the callback runs on the relay that owns the
timer, and the rearm posts with the interval the timer has when the callback has returned. -/
def Timer.OnMessage (r : PeerRelay) (env : Env) : Except Fault (PeerRelay × List Effect) :=
  if r._offererConnectionCheckTimer._callback then
    match r._checkConnection env with
    | Except.error f => Except.error f
    | Except.ok (r1, e1) =>
      Except.ok (r1, e1 ++ [Effect.threadPostDelayed r1._offererConnectionCheckTimer._interval])
  else
    Except.ok (r, [])

/-- The delayed messages pending for the timer on the thread's queue, as their due times, after
the calls made at clock `now` (milliseconds): `Clear(this)` removes all of them and
`PostDelayed(ms, this)` adds one that is due at `now + ms`. -/
def pendingAfter (now : Int) : List Int → List Effect → List Int
  | queue, [] => queue
  | _, Effect.threadClear :: rest => pendingAfter now [] rest
  | queue, Effect.threadPostDelayed ms :: rest => pendingAfter now (queue ++ [now + ms]) rest
  | queue, _ :: rest => pendingAfter now queue rest

/-- A sequence of calls of `_createOffer`, each with the environment it sees: the relay after
the last call and, for each call, the calls it made. -/
def PeerRelay.createOffers : PeerRelay → List Env → Except Fault (PeerRelay × List (List Effect))
  | r, [] => Except.ok (r, [])
  | r, env :: rest =>
    match r._createOffer env with
    | Except.error f => Except.error f
    | Except.ok (r1, e1) =>
      match PeerRelay.createOffers r1 rest with
      | Except.error f => Except.error f
      | Except.ok (r2, es) => Except.ok (r2, e1 :: es)

/-- Lines 303-312 of `_checkConnection`, the missed-ping rule: the first of the three steps a
tick takes on a connected offerer (`checkConnection_steps`). -/
def PeerRelay.missedPingRule (r : PeerRelay) (env : Env) :
    Except Fault (PeerRelay × List Effect) :=
  if r._lastSentPingTime.isSome && !r._lastReceivedPongTime.isSome then
    let r1 := { r with _missedPings := r._missedPings + 1 }
    if r1._missedPings == 2 then
      match r1._createOffer env with
      | Except.error f => Except.error f
      | Except.ok (r2, e2) => Except.ok (r2, [Effect.log LogLevel.info] ++ e2)
    else
      Except.ok (r1, [])
  else
    Except.ok (r, [])

/-- Lines 313-323 of `_checkConnection`, the 15-second rule: the second step of a tick on a
connected offerer. -/
def PeerRelay.noPongRule (r2 : PeerRelay) (env : Env) : Except Fault (PeerRelay × List Effect) :=
  if r2._lastSentPingTime.isSome && r2._lastReceivedPongTime.isSome &&
      optionalGreater r2._lastSentPingTime r2._lastReceivedPongTime then
    let pingDurationSeconds :=
      durationCastSeconds (r2._lastSentPingTime.getD 0 - r2._lastReceivedPongTime.getD 0)
    if decide (pingDurationSeconds >= 15) then
      match r2._createOffer env with
      | Except.error f => Except.error f
      | Except.ok (r3, e3) => Except.ok (r3, [Effect.log LogLevel.info] ++ e3)
    else
      Except.ok (r2, [])
  else
    Except.ok (r2, [])

/-- Lines 324-329 of `_checkConnection`, the PING: the third step of a tick on a connected
offerer. -/
def PeerRelay.sendPing (r3 : PeerRelay) (env : Env) : PeerRelay × List Effect :=
  if r3._dataChannel.isSome then
    ({ r3 with _lastSentPingTime := some env.now, _lastReceivedPongTime := none },
      [Effect.dataChannelSend PingMessage true])
  else
    (r3, [])

/-- The condition under which the missed-ping rule invokes offer creation on a tick: the relay
is a connected offerer, a ping was sent, no pong has been received, and this missed ping is the
second (`missedPingRule_fires`, `missedPingRule_quiet`). -/
def PeerRelay.missedPingRestart (r : PeerRelay) : Bool :=
  r._isOfferer && r.isConnected && r._lastSentPingTime.isSome &&
    !r._lastReceivedPongTime.isSome && r._missedPings + 1 == 2

/-- No event of the run takes the connected flag from false to true: the run lies between two
consecutive such transitions. -/
def PeerRelay.noConnectTransition : PeerRelay → List (Env × Event) → Bool
  | _, [] => true
  | r, (env, ev) :: rest =>
    match r.handle env ev with
    | Except.error _ => true
    | Except.ok (r1, _) =>
      !(!r._isConnected && r1._isConnected) && PeerRelay.noConnectTransition r1 rest

/-- The number of ticks of the run on which the missed-ping rule invokes offer creation. -/
def PeerRelay.missedPingRestarts : PeerRelay → List (Env × Event) → Nat
  | _, [] => 0
  | r, (env, ev) :: rest =>
    (if ev = Event.checkConnection ∧ r.missedPingRestart = true then 1 else 0) +
      match r.handle env ev with
      | Except.error _ => 0
      | Except.ok (r1, _) => PeerRelay.missedPingRestarts r1 rest

/-- The keepalive times are in order at clock `t`: a recorded ping time is not later than `t`,
and a recorded pong time is not earlier than the recorded ping time. -/
def PeerRelay.keepaliveOrdered (r : PeerRelay) (t : Int) : Bool :=
  match r._lastSentPingTime, r._lastReceivedPongTime with
  | none, _ => true
  | some s, none => decide (s ≤ t)
  | some s, some p => decide (s ≤ t) && decide (s ≤ p)

/-- The clock readings of the events do not decrease, starting from `t`. -/
def clockNonDecreasing : Int → List (Env × Event) → Bool
  | _, [] => true
  | t, (env, _) :: rest => decide (t ≤ env.now) && clockNonDecreasing env.now rest

/-- The call invokes a callback of the embedding application: state, connected, candidate, sdp
or data-channel-open. -/
def Effect.isCallback : Effect → Bool
  | Effect.stateCallback _ => true
  | Effect.connectedCallback _ => true
  | Effect.candidateCallback _ => true
  | Effect.sdpCallback _ => true
  | Effect.dataChannelOpenCallback => true
  | _ => false

/-- What the ICE stack delivers to the relay through its observers while a call into the stack
runs, as far as `PeerRelay.cpp` handles it: an ICE state report, handled by `_setIceState`, or
an inbound data-channel message, handled by `_onRemoteMessage`. -/
inductive ObserverEvent
  | iceState (state : String)
  | remoteMessage (data : List Byte)
  deriving DecidableEq, Repr

/-- The event of the relay that an observer callback is. -/
def ObserverEvent.toEvent : ObserverEvent → Event
  | ObserverEvent.iceState state => Event.iceState state
  | ObserverEvent.remoteMessage data => Event.remoteMessage data

/-- The destructor `PeerRelay::~PeerRelay()` and the destruction of the members that follows
it, of which `_offererConnectionCheckTimer` runs `Timer::~Timer()`, that is `stop()`.
`duringUnregister` and `duringClose` are the callbacks the ICE stack delivers through the
observers while `UnregisterObserver` and `Close` run; these are the callbacks the closing flag
is there for. The thread runs the destructor to completion as it does every operation of the
relay, so it dispatches no timer message and no socket event meanwhile. -/
def PeerRelay.destroy (r : PeerRelay) (duringUnregister duringClose : List (Env × ObserverEvent)) :
    Except Fault (PeerRelay × List Effect) :=
  let r0 := { r with _closing := true }
  let channel : Except Fault (PeerRelay × List Effect) :=
    if r0._dataChannel.isSome then
      match r0.run (duringUnregister.map fun p => (p.1, p.2.toEvent)) with
      | Except.error f => Except.error f
      | Except.ok (r1, e1) =>
        Except.ok ({ r1 with _dataChannel := none }, [Effect.unregisterObserver] ++ e1)
    else
      Except.ok (r0, [])
  match channel with
  | Except.error f => Except.error f
  | Except.ok (r2, e2) =>
    let connection : Except Fault (PeerRelay × List Effect) :=
      if r2._peerConnection.isSome then
        match r2.run (duringClose.map fun p => (p.1, p.2.toEvent)) with
        | Except.error f => Except.error f
        | Except.ok (r3, e3) =>
          Except.ok ({ r3 with _peerConnection := none }, [Effect.peerConnectionClose] ++ e3)
      else
        Except.ok (r2, [])
    match connection with
    | Except.error f => Except.error f
    | Except.ok (r4, e4) =>
      let (t, e5) := r4._offererConnectionCheckTimer.stop
      Except.ok ({ r4 with _offererConnectionCheckTimer := t }, e2 ++ e4 ++ e5)

/-- The call sends the PING frame on the data channel. -/
def Effect.isPingSend : Effect → Bool
  | Effect.dataChannelSend data _ => decide (data = PingMessage)
  | _ => false

end faf

/-! ## Sample relays, used to evaluate the code at concrete inputs -/

namespace faf

/-- Declarations with a check interval of ten seconds and a read buffer of 2048 bytes. -/
def sampleDeclared : Declared :=
  { _connectionCheckIntervalMs := 10000, _readBufferSize := 2048, _iceState := "new" }

/-- A relay in the state the constructor leaves it in for player 42 (alice), game port 6112, at
clock 100, with both callbacks set (`sampleRelay_constructed`), except that the connected flag
and the presence of the data channel are as given. -/
def sampleRelay (isOfferer connected hasChannel : Bool) : PeerRelay :=
  { _iceServerList := []
    _remotePlayerId := 42
    _remotePlayerLogin := "alice"
    _isOfferer := isOfferer
    _gameUdpAddress := { host := "127.0.0.1", port := 6112 }
    _localUdpSocket := true
    _localUdpSocketPort := 50000
    _callbacks := { stateCallback := true, connectedCallback := true }
    _peerConnection := some { servers := [] }
    _dataChannel :=
      if hasChannel then some { label := "faf", init := { ordered := false, maxRetransmits := 0 } }
      else none
    _connectStartTime := 100
    _connectDuration := 0
    _iceState := "new"
    _isConnected := connected
    _closing := false
    _missedPings := 0
    _lastSentPingTime := none
    _lastReceivedPongTime := none
    _offererConnectionCheckTimer :=
      if isOfferer then { _interval := 10000, _callback := true } else Timer.create
    _connectionCheckIntervalMs := 10000
    _readBufferSize := 2048 }

/-- An environment whose clock reads `now` and whose ICE stack hands out data channels. -/
def envAt (now : Int) : Env := { now := now, dataChannelCreated := true }

/-- The sample relays that are not connected are what the constructor returns: the offerer with
the data channel it has created, the answerer without one. -/
theorem sampleRelay_constructed :
    Except.map Prod.fst (PeerRelay.construct sampleDeclared
        { iceServers := [], remotePlayerId := 42, remotePlayerLogin := "alice",
          isOfferer := true, gameUdpPort := 6112 }
        { stateCallback := true, connectedCallback := true }
        { socketCreated := true, bindResult := 0, localPort := 50000,
          peerConnectionCreated := true, env := envAt 100 }) =
      Except.ok (sampleRelay true false true) ∧
    Except.map Prod.fst (PeerRelay.construct sampleDeclared
        { iceServers := [], remotePlayerId := 42, remotePlayerLogin := "alice",
          isOfferer := false, gameUdpPort := 6112 }
        { stateCallback := true, connectedCallback := true }
        { socketCreated := true, bindResult := 0, localPort := 50000,
          peerConnectionCreated := true, env := envAt 100 }) =
      Except.ok (sampleRelay false false false) := by
  decide

/-! ## The keepalive frames -/

/-- The PING frame is the 14 ASCII bytes of `ICEADAPTERPING` and one NUL. -/
theorem PingMessage_bytes :
    PingMessage = [73, 67, 69, 65, 68, 65, 80, 84, 69, 82, 80, 73, 78, 71, 0] := by decide

/-- The PONG frame is the 14 ASCII bytes of `ICEADAPTERPONG` and one NUL. -/
theorem PongMessage_bytes :
    PongMessage = [73, 67, 69, 65, 68, 65, 80, 84, 69, 82, 80, 79, 78, 71, 0] := by decide

/-- On ranges of equal length `std::equal` is equality. -/
theorem std_equal_iff_eq : ∀ (a b : List Byte), a.length = b.length →
    (std_equal a b = true ↔ a = b)
  | [], [], _ => by simp [std_equal]
  | [], _ :: _, h => by simp at h
  | _ :: _, [], h => by simp at h
  | x :: xs, y :: ys, h => by
    have hlen : xs.length = ys.length := by simpa using h
    simp [std_equal, std_equal_iff_eq xs ys hlen]

/-- The size check followed by `std::equal` against a frame holds exactly for the frame. -/
theorem frame_test_iff (data frame : List Byte) :
    (data.length == sizeof frame && std_equal (data.take (sizeof frame)) frame) = true ↔
      data = frame := by
  constructor
  · intro h
    simp only [Bool.and_eq_true, beq_iff_eq, sizeof] at h
    obtain ⟨hlen, heq⟩ := h
    have htake : data.take frame.length = data := by
      rw [← hlen]; exact List.take_length data
    rw [htake] at heq
    exact (std_equal_iff_eq data frame hlen).mp heq
  · intro h
    subst h
    simp only [Bool.and_eq_true, beq_iff_eq, sizeof, true_and, List.take_length]
    exact (std_equal_iff_eq data data rfl).mpr rfl

/-! ## Inbound data-channel messages -/

/-- C2. A message that is neither the PONG frame on an offerer nor the PING frame on an answerer
is forwarded: on a relay whose local socket exists and whose game address is
`127.0.0.1:gameUdpPort` (both as the constructor leaves them), `_onRemoteMessage` makes exactly
one call, the UDP send of the same bytes to that address, and leaves the relay as it was. -/
theorem onRemoteMessage_other_forwarded (r : PeerRelay) (env : Env) (data : List Byte)
    (gameUdpPort : Nat)
    (hsocket : r._localUdpSocket = true)
    (haddr : r._gameUdpAddress = { host := "127.0.0.1", port := gameUdpPort })
    (hpong : ¬ (r._isOfferer = true ∧ data = PongMessage))
    (hping : ¬ (r._isOfferer = false ∧ data = PingMessage)) :
    r._onRemoteMessage env data =
      (r, [Effect.udpSendTo data { host := "127.0.0.1", port := gameUdpPort }]) := by
  have h1 : (r._isOfferer && data.length == sizeof PongMessage &&
      std_equal (data.take (sizeof PongMessage)) PongMessage) = false := by
    rw [Bool.and_assoc, Bool.eq_false_iff]
    intro h
    rw [Bool.and_eq_true, frame_test_iff] at h
    exact hpong h
  have h2 : (!r._isOfferer && data.length == sizeof PingMessage &&
      std_equal (data.take (sizeof PingMessage)) PingMessage && r._dataChannel.isSome) = false := by
    rw [Bool.and_assoc, Bool.and_assoc, Bool.eq_false_iff]
    intro h
    rw [Bool.and_eq_true, ← Bool.and_assoc, Bool.and_eq_true, frame_test_iff] at h
    exact hping ⟨by simpa using h.1, h.2.1⟩
  simp only [PeerRelay._onRemoteMessage, h1, h2, hsocket, haddr, if_true, Bool.false_eq_true,
    if_false]

/-- C2 at the 14 bytes `ICEADAPTERPING` without the NUL, on an offerer and on an answerer, and at
the 16 bytes of a PONG frame followed by one more byte on an offerer. -/
theorem onRemoteMessage_other_forwarded_witness :
    (sampleRelay false true true)._onRemoteMessage (envAt 200)
        [73, 67, 69, 65, 68, 65, 80, 84, 69, 82, 80, 73, 78, 71] =
      (sampleRelay false true true,
        [Effect.udpSendTo [73, 67, 69, 65, 68, 65, 80, 84, 69, 82, 80, 73, 78, 71]
          { host := "127.0.0.1", port := 6112 }]) ∧
    (sampleRelay true true true)._onRemoteMessage (envAt 200) (PongMessage ++ [1]) =
      (sampleRelay true true true,
        [Effect.udpSendTo (PongMessage ++ [1]) { host := "127.0.0.1", port := 6112 }]) :=
  ⟨onRemoteMessage_other_forwarded _ _ _ 6112 (by decide) (by decide) (by decide) (by decide),
   onRemoteMessage_other_forwarded _ _ _ 6112 (by decide) (by decide) (by decide) (by decide)⟩

/-- C3. On an offerer the PONG frame (the 14 ASCII bytes of `ICEADAPTERPONG` and one NUL, 15
bytes) is consumed: `_onRemoteMessage` makes no call at all, so no UDP send and no data-channel
send, sets `_lastReceivedPongTime` to the current time and leaves every other member as it
was. -/
theorem onRemoteMessage_pong_offerer (r : PeerRelay) (env : Env) (data : List Byte)
    (hoff : r._isOfferer = true)
    (hdata : data = [73, 67, 69, 65, 68, 65, 80, 84, 69, 82, 80, 79, 78, 71, 0]) :
    data = PongMessage ∧ data.length = 15 ∧
    r._onRemoteMessage env data = ({ r with _lastReceivedPongTime := some env.now }, []) := by
  have hp : data = PongMessage := by rw [hdata, PongMessage_bytes]
  refine ⟨hp, by rw [hdata]; rfl, ?_⟩
  have h1 : (data.length == sizeof PongMessage &&
      std_equal (data.take (sizeof PongMessage)) PongMessage) = true :=
    (frame_test_iff data PongMessage).mpr hp
  simp only [PeerRelay._onRemoteMessage, hoff, Bool.true_and, Bool.and_assoc, h1, if_true]

/-- C3 on a connected offerer at clock 200. -/
theorem onRemoteMessage_pong_offerer_witness :
    (sampleRelay true true true)._onRemoteMessage (envAt 200) PongMessage =
      ({ sampleRelay true true true with _lastReceivedPongTime := some 200 }, []) :=
  (onRemoteMessage_pong_offerer (sampleRelay true true true) (envAt 200) PongMessage
    (by decide) (by decide)).2.2

/-- C4. On an answerer that has a data channel the PING frame (15 bytes) is answered:
`_onRemoteMessage` makes exactly one call, the data-channel send of the 15 bytes of the PONG
frame as a binary message, sends nothing to the game and leaves the relay as it was. -/
theorem onRemoteMessage_ping_answerer (r : PeerRelay) (env : Env) (data : List Byte)
    (hans : r._isOfferer = false) (hchannel : r._dataChannel.isSome = true)
    (hdata : data = PingMessage) :
    data.length = 15 ∧ PongMessage.length = 15 ∧
    r._onRemoteMessage env data = (r, [Effect.dataChannelSend PongMessage true]) := by
  refine ⟨by rw [hdata]; rfl, rfl, ?_⟩
  have h1 : (data.length == sizeof PingMessage &&
      std_equal (data.take (sizeof PingMessage)) PingMessage) = true :=
    (frame_test_iff data PingMessage).mpr hdata
  simp only [PeerRelay._onRemoteMessage, hans, Bool.false_and, Bool.false_eq_true, if_false,
    Bool.not_false, Bool.true_and, Bool.and_assoc, h1, hchannel, Bool.and_self, if_true]

/-- C4 on an answerer with a data channel. -/
theorem onRemoteMessage_ping_answerer_witness :
    (sampleRelay false true true)._onRemoteMessage (envAt 200) PingMessage =
      (sampleRelay false true true, [Effect.dataChannelSend PongMessage true]) :=
  (onRemoteMessage_ping_answerer (sampleRelay false true true) (envAt 200) PingMessage
    (by decide) (by decide) rfl).2.2

/-- C5, as stated, fails: on a connected offerer the PING frame is not consumed. The call makes a
UDP send, so it is false that it makes no UDP send and no PONG send. -/
theorem onRemoteMessage_ping_offerer_counterexample :
    ¬ ((((sampleRelay true true true)._onRemoteMessage (envAt 200) PingMessage).2.any
          Effect.isUdpSend = false) ∧
        Effect.dataChannelSend PongMessage true ∉
          ((sampleRelay true true true)._onRemoteMessage (envAt 200) PingMessage).2) := by
  decide

/-- C5, amended. On an offerer, connected or not, whose local socket exists the PING frame is forwarded like any
other message: `_onRemoteMessage` makes exactly one call, the UDP send of the 15 PING bytes to
the game address; it sends no PONG (nothing at all) on the data channel and leaves the relay as
it was. -/
theorem onRemoteMessage_ping_offerer (r : PeerRelay) (env : Env)
    (hoff : r._isOfferer = true) (hsocket : r._localUdpSocket = true) :
    r._onRemoteMessage env PingMessage = (r, [Effect.udpSendTo PingMessage r._gameUdpAddress]) ∧
    (r._onRemoteMessage env PingMessage).2.any Effect.isDataChannelSend = false := by
  have h : r._onRemoteMessage env PingMessage =
      (r, [Effect.udpSendTo PingMessage r._gameUdpAddress]) := by
    have h1 : (PingMessage.length == sizeof PongMessage &&
        std_equal (PingMessage.take (sizeof PongMessage)) PongMessage) = false := by decide
    simp only [PeerRelay._onRemoteMessage, hoff, Bool.true_and, Bool.and_assoc, h1,
      Bool.false_eq_true, if_false, Bool.not_true, Bool.false_and, hsocket, if_true]
  refine ⟨h, ?_⟩
  rw [h]
  rfl

/-- C5, amended, on a connected offerer: the PING goes to `127.0.0.1:6112`. -/
theorem onRemoteMessage_ping_offerer_witness :
    (sampleRelay true true true)._onRemoteMessage (envAt 200) PingMessage =
      (sampleRelay true true true,
        [Effect.udpSendTo PingMessage { host := "127.0.0.1", port := 6112 }]) :=
  (onRemoteMessage_ping_offerer (sampleRelay true true true) (envAt 200)
    (by decide) (by decide)).1

/-! ## Runs of events -/

/-- A run over a sequence followed by one more event is the run over the sequence followed by
the handler of that event. -/
theorem run_append_single (ev : Env × Event) : ∀ (events : List (Env × Event)) (r : PeerRelay),
    r.run (events ++ [ev]) =
      match r.run events with
      | Except.error f => Except.error f
      | Except.ok (r1, e1) =>
        match r1.handle ev.1 ev.2 with
        | Except.error f => Except.error f
        | Except.ok (r2, e2) => Except.ok (r2, e1 ++ e2)
  | [], r => by
    obtain ⟨env, event⟩ := ev
    simp only [List.nil_append, PeerRelay.run]
    cases h : r.handle env event with
    | error f => rfl
    | ok out => simp
  | (env, event) :: rest, r => by
    show r.run ((env, event) :: (rest ++ [ev])) = _
    rw [PeerRelay.run, PeerRelay.run]
    cases h : r.handle env event with
    | error f => rfl
    | ok out =>
      obtain ⟨r1, e1⟩ := out
      simp only [run_append_single ev rest r1]
      cases h1 : r1.run rest with
      | error f => rfl
      | ok out1 =>
        obtain ⟨r2, e2⟩ := out1
        simp only
        cases h2 : r2.handle ev.1 ev.2 with
        | error f => rfl
        | ok out2 => simp [List.append_assoc]

/-! ## Datagrams from the game -/

/-- C6. While the relay is not connected a datagram read from the game socket is dropped:
`_onPeerdataFromGame` makes one call, the trace log record, so nothing is sent on the data
channel, and the relay is left as it was. Consequently, in any run that has brought a relay to a
state that is not connected, the next game datagram adds only that log record to the calls of the
run: no game payload reaches the data channel. -/
theorem onPeerdataFromGame_not_connected (r : PeerRelay) (socket : AsyncSocket)
    (hnc : r._isConnected = false) :
    r._onPeerdataFromGame socket = (r, [Effect.log LogLevel.trace]) ∧
    (r._onPeerdataFromGame socket).2.any Effect.isDataChannelSend = false ∧
    ∀ (r0 : PeerRelay) (before : List (Env × Event)) (env : Env) (e : List Effect),
      r0.run before = Except.ok (r, e) →
      r0.run (before ++ [(env, Event.peerdataFromGame socket)]) =
        Except.ok (r, e ++ [Effect.log LogLevel.trace]) := by
  have h : r._onPeerdataFromGame socket = (r, [Effect.log LogLevel.trace]) := by
    simp [PeerRelay._onPeerdataFromGame, hnc]
  refine ⟨h, by rw [h]; rfl, ?_⟩
  intro r0 before env e hrun
  rw [run_append_single, hrun]
  simp only [PeerRelay.handle, h]

/-- C6 on a relay that is not connected, for the datagram `01 02 03 04`, directly and after an
ICE state report of `checking`. -/
theorem onPeerdataFromGame_not_connected_witness :
    (sampleRelay true false true)._onPeerdataFromGame { pending := some [1, 2, 3, 4] } =
      (sampleRelay true false true, [Effect.log LogLevel.trace]) ∧
    (sampleRelay false true true).run
        ([(envAt 200, Event.iceState "checking")] ++
          [(envAt 201, Event.peerdataFromGame { pending := some [1, 2, 3, 4] })]) =
      Except.ok ({ sampleRelay false false true with _iceState := "checking" },
        [Effect.log LogLevel.debug, Effect.connectedCallback false, Effect.log LogLevel.info,
          Effect.getStats, Effect.stateCallback "checking"] ++ [Effect.log LogLevel.trace]) :=
  ⟨(onPeerdataFromGame_not_connected (sampleRelay true false true)
      { pending := some [1, 2, 3, 4] } (by decide)).1,
   (onPeerdataFromGame_not_connected { sampleRelay false false true with _iceState := "checking" }
      { pending := some [1, 2, 3, 4] } (by decide)).2.2 (sampleRelay false true true)
      [(envAt 200, Event.iceState "checking")] (envAt 201) _ (by decide)⟩

/-- The relay `_setConnected` leaves behind: on a change of the flag to true the connect duration
is taken and the keepalive members are cleared, on a change to false only the flag changes, and
without a change nothing does. -/
theorem setConnected_relay (r : PeerRelay) (env : Env) (connected : Bool) :
    (r._setConnected env connected).1 =
      if connected = r._isConnected then r
      else if connected = true then
        { r with _isConnected := true, _connectDuration := env.now - r._connectStartTime,
                 _missedPings := 0, _lastSentPingTime := none, _lastReceivedPongTime := none }
      else { r with _isConnected := false } := by
  cases connected <;> cases h : r._isConnected <;> simp [PeerRelay._setConnected, h]

/-- C10. On a relay that is not connected, `_setConnected(true)` sets the flag and leaves
`_missedPings = 0` and both keepalive times empty, whatever they were; on a relay that is
connected it makes no call and changes nothing. The same holds when the call is reached from
`_setIceState` with `connected` or `completed` on a relay that is not closing: that report
returns, and the three members are cleared if the relay was not connected and kept if it was. -/
theorem setConnected_true_keepalive (r : PeerRelay) (env : Env) :
    (r._isConnected = false →
      (r._setConnected env true).1._isConnected = true ∧
      (r._setConnected env true).1._missedPings = 0 ∧
      (r._setConnected env true).1._lastSentPingTime = none ∧
      (r._setConnected env true).1._lastReceivedPongTime = none) ∧
    (r._isConnected = true → r._setConnected env true = (r, [])) ∧
    (∀ state : String, state = "connected" ∨ state = "completed" → r._closing = false →
      ∃ out, r._setIceState env state = Except.ok out ∧ out.1._isConnected = true ∧
        (r._isConnected = false →
          out.1._missedPings = 0 ∧ out.1._lastSentPingTime = none ∧
          out.1._lastReceivedPongTime = none) ∧
        (r._isConnected = true →
          out.1._missedPings = r._missedPings ∧
          out.1._lastSentPingTime = r._lastSentPingTime ∧
          out.1._lastReceivedPongTime = r._lastReceivedPongTime)) := by
  refine ⟨?_, ?_, ?_⟩
  · intro h
    simp [setConnected_relay, h]
  · intro h
    simp [PeerRelay._setConnected, h]
  · intro state hstate hclosing
    have hc : (state == "connected" || state == "completed") = true := by
      rcases hstate with h | h <;> simp [h]
    have hf : (state == "failed" || state == "disconnected" || state == "closed") = false := by
      rcases hstate with h | h <;> subst h <;> decide
    cases hconn : r._isConnected <;>
      simp [PeerRelay._setIceState, PeerRelay._setConnected, hclosing, hc, hf, hconn]

/-- C10 on a relay that is not connected with two missed pings and both times set, on the same
relay once connected, and through `_setIceState` with `completed`. -/
theorem setConnected_true_keepalive_witness :
    (({ sampleRelay true false true with
          _missedPings := 2, _lastSentPingTime := some 150,
          _lastReceivedPongTime := some 140 }._setConnected (envAt 200) true).1._missedPings = 0) ∧
    ({ sampleRelay true true true with
          _missedPings := 2, _lastSentPingTime := some 150,
          _lastReceivedPongTime := some 140 }._setConnected (envAt 200) true =
      ({ sampleRelay true true true with
          _missedPings := 2, _lastSentPingTime := some 150,
          _lastReceivedPongTime := some 140 }, [])) ∧
    (∃ out, { sampleRelay true false true with
          _missedPings := 2, _lastSentPingTime := some 150,
          _lastReceivedPongTime := some 140 }._setIceState (envAt 200) "completed" =
        Except.ok out ∧ out.1._isConnected = true) :=
  ⟨((setConnected_true_keepalive _ (envAt 200)).1 (by decide)).2.1,
   (setConnected_true_keepalive _ (envAt 200)).2.1 (by decide),
   ((setConnected_true_keepalive { sampleRelay true false true with
          _missedPings := 2, _lastSentPingTime := some 150,
          _lastReceivedPongTime := some 140 } (envAt 200)).2.2 "completed"
      (Or.inr rfl) (by decide)).imp fun _ h => ⟨h.1, h.2.1⟩⟩

/-! ## Offer creation and ICE state reports -/

/-- On an answerer `_createOffer` does nothing. -/
theorem createOffer_answerer (r : PeerRelay) (env : Env) (hans : r._isOfferer = false) :
    r._createOffer env = Except.ok (r, []) := by
  simp [PeerRelay._createOffer, hans]

/-- On an offerer with a peer connection and a data channel `_createOffer` returns: it issues
`CreateOffer` with the restart flag and starts the timer, and changes nothing but the timer. -/
theorem createOffer_ready (r : PeerRelay) (env : Env) (hoff : r._isOfferer = true)
    (hpc : r._peerConnection.isSome = true) (hdc : r._dataChannel.isSome = true) :
    r._createOffer env =
      Except.ok ({ r with _offererConnectionCheckTimer :=
                    { _interval := r._connectionCheckIntervalMs, _callback := true } },
        [Effect.createOffer
            { offer_to_receive_audio := 0, offer_to_receive_video := 0, ice_restart := true },
          Effect.threadClear, Effect.threadClear,
          Effect.threadPostDelayed r._connectionCheckIntervalMs]) := by
  obtain ⟨pc, hpc⟩ := Option.isSome_iff_exists.mp hpc
  obtain ⟨dc, hdc⟩ := Option.isSome_iff_exists.mp hdc
  simp [PeerRelay._createOffer, hoff, hpc, hdc, Timer.start, Timer.stop]

/-- Whenever `_createOffer` returns, it has changed at most the data channel and the timer, and
a data channel that existed is still there. -/
theorem createOffer_frame (r : PeerRelay) (env : Env) (out : PeerRelay × List Effect)
    (h : r._createOffer env = Except.ok out) :
    ∃ dc t, out.1 = { r with _dataChannel := dc, _offererConnectionCheckTimer := t } ∧
      (r._dataChannel.isSome = true → dc.isSome = true) := by
  rcases Bool.eq_false_or_eq_true r._isOfferer with hoff | hoff
  · rcases Option.eq_none_or_eq_some r._peerConnection with hpc | ⟨pc, hpc⟩
    · rcases Option.eq_none_or_eq_some r._dataChannel with hdc | ⟨dc, hdc⟩
      · simp [PeerRelay._createOffer, hoff, hpc, hdc] at h
      · simp [PeerRelay._createOffer, hoff, hpc, hdc] at h
    · rcases Option.eq_none_or_eq_some r._dataChannel with hdc | ⟨dc, hdc⟩
      · rcases Bool.eq_false_or_eq_true env.dataChannelCreated with hcr | hcr
        · simp [PeerRelay._createOffer, hoff, hpc, hdc, hcr] at h
          subst h
          exact ⟨some { label := "faf", init := { ordered := false, maxRetransmits := 0 } },
            (r._offererConnectionCheckTimer.start r._connectionCheckIntervalMs).1,
            by simp [hoff, hpc], fun _ => rfl⟩
        · simp [PeerRelay._createOffer, hoff, hpc, hdc, hcr] at h
      · simp [PeerRelay._createOffer, hoff, hpc, hdc] at h
        subst h
        exact ⟨some dc, (r._offererConnectionCheckTimer.start r._connectionCheckIntervalMs).1,
          by simp [hoff, hpc], fun _ => rfl⟩
  · rw [createOffer_answerer r env hoff] at h
    cases h
    exact ⟨r._dataChannel, r._offererConnectionCheckTimer, rfl, id⟩


/-- What `_setConnected` leaves alone. -/
theorem setConnected_frame (r : PeerRelay) (env : Env) (connected : Bool) :
    (r._setConnected env connected).1._isConnected = connected ∧
    (r._setConnected env connected).1._closing = r._closing ∧
    (r._setConnected env connected).1._isOfferer = r._isOfferer ∧
    (r._setConnected env connected).1._peerConnection = r._peerConnection ∧
    (r._setConnected env connected).1._dataChannel = r._dataChannel ∧
    (r._setConnected env connected).1._connectStartTime = r._connectStartTime := by
  rw [setConnected_relay]
  cases connected <;> cases h : r._isConnected <;> simp [h]

/-- The timer is not touched by `_setConnected`. -/
theorem setConnected_timer (r : PeerRelay) (env : Env) (connected : Bool) :
    (r._setConnected env connected).1._offererConnectionCheckTimer =
      r._offererConnectionCheckTimer := by
  rw [setConnected_relay]
  cases connected <;> cases h : r._isConnected <;> simp [h]

/-- What `_setIceState` does on a relay that is not closing, in one expression: the flag update,
the stats request, the state callback and, on an offerer that is told of a lost connection, the
offer creation. -/
theorem setIceState_eq (r : PeerRelay) (env : Env) (state : String)
    (hclosing : r._closing = false) :
    r._setIceState env state =
      if r._isOfferer && (state == "failed" || state == "disconnected" || state == "closed") then
        match (({ r with _iceState := state } : PeerRelay)._setConnected env
            (state == "connected" || state == "completed")).1._createOffer env with
        | Except.error f => Except.error f
        | Except.ok (r2, e4) =>
          Except.ok (r2, [Effect.log LogLevel.debug] ++
            (({ r with _iceState := state } : PeerRelay)._setConnected env
              (state == "connected" || state == "completed")).2 ++
            (if r._peerConnection.isSome then [Effect.getStats] else []) ++
            (if r._callbacks.stateCallback then [Effect.stateCallback state] else []) ++
            [Effect.log LogLevel.warn] ++ e4)
      else
        Except.ok ((({ r with _iceState := state } : PeerRelay)._setConnected env
            (state == "connected" || state == "completed")).1,
          [Effect.log LogLevel.debug] ++
            (({ r with _iceState := state } : PeerRelay)._setConnected env
              (state == "connected" || state == "completed")).2 ++
            (if r._peerConnection.isSome then [Effect.getStats] else []) ++
            (if r._callbacks.stateCallback then [Effect.stateCallback state] else [])) := by
  rcases Bool.eq_false_or_eq_true (state == "connected" || state == "completed") with hc | hc <;>
  rcases Bool.eq_false_or_eq_true r._isConnected with hconn | hconn <;>
  rcases Bool.eq_false_or_eq_true r._isOfferer with hoff | hoff <;>
  rcases Bool.eq_false_or_eq_true
    (state == "failed" || state == "disconnected" || state == "closed") with hf | hf <;>
  simp [PeerRelay._setIceState, PeerRelay._setConnected, hclosing, hc, hconn, hoff, hf]

/-- On a closing relay `_setIceState` stores the state string, logs, and does nothing else. -/
theorem setIceState_closing (r : PeerRelay) (env : Env) (state : String)
    (hclosing : r._closing = true) :
    r._setIceState env state =
      Except.ok ({ r with _iceState := state }, [Effect.log LogLevel.debug]) := by
  simp [PeerRelay._setIceState, hclosing]

/-- Whenever `_setIceState` returns on a relay that is not closing, the relay is the one the flag
update leaves, up to the data channel and the timer that offer creation may have set. -/
theorem setIceState_frame (r : PeerRelay) (env : Env) (state : String)
    (out : PeerRelay × List Effect) (hclosing : r._closing = false)
    (h : r._setIceState env state = Except.ok out) :
    ∃ dc t, out.1 =
        { (({ r with _iceState := state } : PeerRelay)._setConnected env
              (state == "connected" || state == "completed")).1 with
          _dataChannel := dc, _offererConnectionCheckTimer := t } ∧
      (r._dataChannel.isSome = true → dc.isSome = true) := by
  rw [setIceState_eq r env state hclosing] at h
  have hdc := (setConnected_frame ({ r with _iceState := state } : PeerRelay) env
    (state == "connected" || state == "completed")).2.2.2.2.1
  split at h
  · cases hco : (({ r with _iceState := state } : PeerRelay)._setConnected env
        (state == "connected" || state == "completed")).1._createOffer env with
    | error f => rw [hco] at h; cases h
    | ok out2 =>
      obtain ⟨r2, e4⟩ := out2
      rw [hco] at h
      cases h
      obtain ⟨dc, t, heq, hsome⟩ := createOffer_frame _ env _ hco
      exact ⟨dc, t, heq, fun hr => hsome (by rw [hdc]; exact hr)⟩
  · cases h
    exact ⟨_, _, rfl, fun hr => by rw [hdc]; exact hr⟩


/-- Whenever `_setIceState` returns on a relay that is not closing, the connected flag tells
whether the reported state is `connected` or `completed`; the relay is still not closing, has the
same role, peer connection, connect start time, and still has a data channel if it had one. -/
theorem setIceState_step (r : PeerRelay) (env : Env) (state : String)
    (out : PeerRelay × List Effect) (hclosing : r._closing = false)
    (h : r._setIceState env state = Except.ok out) :
    out.1._isConnected = (state == "connected" || state == "completed") ∧
    out.1._closing = false ∧
    out.1._isOfferer = r._isOfferer ∧
    out.1._peerConnection = r._peerConnection ∧
    (r._dataChannel.isSome = true → out.1._dataChannel.isSome = true) ∧
    out.1._connectStartTime = r._connectStartTime := by
  obtain ⟨dc, t, heq, hsome⟩ := setIceState_frame r env state out hclosing h
  obtain ⟨f1, f2, f3, f4, _, f6⟩ := setConnected_frame ({ r with _iceState := state } : PeerRelay)
    env (state == "connected" || state == "completed")
  rw [heq]
  exact ⟨f1, f2.trans hclosing, f3, f4, hsome, f6⟩

/-- On a relay that is not closing, and that has its peer connection and data channel if it is
the offerer, `_setIceState` returns. -/
theorem setIceState_returns (r : PeerRelay) (env : Env) (state : String)
    (hclosing : r._closing = false)
    (hready : r._isOfferer = true →
      r._peerConnection.isSome = true ∧ r._dataChannel.isSome = true) :
    ∃ out, r._setIceState env state = Except.ok out := by
  rw [setIceState_eq r env state hclosing]
  obtain ⟨_, _, f3, f4, f5, _⟩ := setConnected_frame ({ r with _iceState := state } : PeerRelay)
    env (state == "connected" || state == "completed")
  split
  · rename_i hcond
    have hoff : r._isOfferer = true := by
      rw [Bool.and_eq_true] at hcond
      exact hcond.1
    rw [createOffer_ready _ env (f3.trans hoff) (by rw [f4]; exact (hready hoff).1)
      (by rw [f5]; exact (hready hoff).2)]
    exact ⟨_, rfl⟩
  · exact ⟨_, rfl⟩

/-- A run of ICE state reports that returns leaves the connected flag telling whether the last
reported state is `connected` or `completed`. -/
theorem run_reports_isConnected : ∀ (reports : List (Env × String)) (r : PeerRelay)
    (hne : reports ≠ []) (_ : r._closing = false) (out : PeerRelay × List Effect),
    r.run (reports.map fun p => (p.1, Event.iceState p.2)) = Except.ok out →
    out.1._isConnected =
      ((reports.getLast hne).2 == "connected" || (reports.getLast hne).2 == "completed")
  | [], _, hne, _, _, _ => absurd rfl hne
  | (env, state) :: rest, r, hne, hclosing, out, h => by
    simp only [List.map_cons, PeerRelay.run, PeerRelay.handle] at h
    cases hstep : r._setIceState env state with
    | error f => rw [hstep] at h; cases h
    | ok out1 =>
      obtain ⟨r1, e1⟩ := out1
      rw [hstep] at h
      have hs := setIceState_step r env state (r1, e1) hclosing hstep
      cases rest with
      | nil =>
        simp only [List.map_nil, PeerRelay.run] at h
        cases h
        exact hs.1
      | cons y rest2 =>
        cases hrest : r1.run ((y :: rest2).map fun p => (p.1, Event.iceState p.2)) with
        | error f => simp only [hrest] at h; cases h
        | ok out2 =>
          obtain ⟨r2, e2⟩ := out2
          simp only [hrest] at h
          cases h
          have ih := run_reports_isConnected (y :: rest2) r1 (List.cons_ne_nil y rest2) hs.2.1
            (r2, e2) hrest
          simpa [List.getLast_cons (List.cons_ne_nil y rest2)] using ih

/-- A run of ICE state reports returns on a relay that is not closing, and that has its peer
connection and data channel if it is the offerer. -/
theorem run_reports_returns : ∀ (reports : List (Env × String)) (r : PeerRelay)
    (_ : r._closing = false)
    (_ : r._isOfferer = true → r._peerConnection.isSome = true ∧ r._dataChannel.isSome = true),
    ∃ out, r.run (reports.map fun p => (p.1, Event.iceState p.2)) = Except.ok out
  | [], r, _, _ => ⟨(r, []), rfl⟩
  | (env, state) :: rest, r, hclosing, hready => by
    obtain ⟨out1, hstep⟩ := setIceState_returns r env state hclosing hready
    obtain ⟨r1, e1⟩ := out1
    obtain ⟨_, h2, h3, h4, h5, _⟩ := setIceState_step r env state (r1, e1) hclosing hstep
    have hready1 : r1._isOfferer = true →
        r1._peerConnection.isSome = true ∧ r1._dataChannel.isSome = true := by
      intro hoff
      have hr := hready (h3.symm.trans hoff)
      exact ⟨by rw [h4]; exact hr.1, h5 hr.2⟩
    obtain ⟨out2, hrest⟩ := run_reports_returns rest r1 h2 hready1
    obtain ⟨r2, e2⟩ := out2
    refine ⟨(r2, e1 ++ e2), ?_⟩
    simp only [List.map_cons, PeerRelay.run, PeerRelay.handle, hstep, hrest]

/-- C1. For every non-empty sequence of ICE state reports applied through `_setIceState` to a
relay that is not closing: whenever the reports have all returned, `isConnected()` is true if and
only if the last reported state string is `connected` or `completed`; and they do all return on
every relay that, if it is the offerer, has the peer connection and data channel its constructor
left it with. -/
theorem setIceState_reports_isConnected (r : PeerRelay) (reports : List (Env × String))
    (hne : reports ≠ []) (hclosing : r._closing = false) :
    (∀ out, r.run (reports.map fun p => (p.1, Event.iceState p.2)) = Except.ok out →
      (out.1.isConnected = true ↔
        (reports.getLast hne).2 = "connected" ∨ (reports.getLast hne).2 = "completed")) ∧
    ((r._isOfferer = true → r._peerConnection.isSome = true ∧ r._dataChannel.isSome = true) →
      ∃ out, r.run (reports.map fun p => (p.1, Event.iceState p.2)) = Except.ok out) := by
  refine ⟨?_, run_reports_returns reports r hclosing⟩
  intro out h
  have hflag := run_reports_isConnected reports r hne hclosing out h
  simp only [PeerRelay.isConnected, hflag, Bool.or_eq_true, beq_iff_eq]

/-- C1 on an offerer for the reports `connected`, `disconnected`, `completed`, and for the
reports `connected`, `failed`. -/
theorem setIceState_reports_isConnected_witness :
    (∃ out, (sampleRelay true false true).run
        ([(envAt 105, "connected"), (envAt 106, "disconnected"), (envAt 109, "completed")].map
          fun p => (p.1, Event.iceState p.2)) = Except.ok out ∧ out.1.isConnected = true) ∧
    (∃ out, (sampleRelay true false true).run
        ([(envAt 105, "connected"), (envAt 106, "failed")].map
          fun p => (p.1, Event.iceState p.2)) = Except.ok out ∧ ¬ out.1.isConnected = true) :=
  ⟨((setIceState_reports_isConnected (sampleRelay true false true)
        [(envAt 105, "connected"), (envAt 106, "disconnected"), (envAt 109, "completed")]
        (by decide) (by decide)).2 (by decide)).imp fun out h =>
      ⟨h, ((setIceState_reports_isConnected (sampleRelay true false true)
        [(envAt 105, "connected"), (envAt 106, "disconnected"), (envAt 109, "completed")]
        (by decide) (by decide)).1 out h).mpr (Or.inr rfl)⟩,
   ((setIceState_reports_isConnected (sampleRelay true false true)
        [(envAt 105, "connected"), (envAt 106, "failed")]
        (by decide) (by decide)).2 (by decide)).imp fun out h =>
      ⟨h, fun hc => absurd (((setIceState_reports_isConnected (sampleRelay true false true)
        [(envAt 105, "connected"), (envAt 106, "failed")]
        (by decide) (by decide)).1 out h).mp hc) (by decide)⟩⟩


/-! ## The connect duration -/

/-- C9, as stated, fails: on an offerer constructed at clock 100 the reports `connected` (at
105), `disconnected`, `connected` (at 109) assign the connect duration twice. It is 5 after the
first report and 9 after the third, so the second transition to connected did not leave it
unchanged. -/
theorem connectDuration_reassigned_counterexample :
    Except.map (fun out => out.1._connectDuration)
        ((sampleRelay true false true).run [(envAt 105, Event.iceState "connected")]) =
      Except.ok 5 ∧
    Except.map (fun out => out.1._connectDuration)
        ((sampleRelay true false true).run
          [(envAt 105, Event.iceState "connected"), (envAt 106, Event.iceState "disconnected"),
            (envAt 109, Event.iceState "connected")]) =
      Except.ok 9 ∧
    ¬ (Except.map (fun out => out.1._connectDuration)
        ((sampleRelay true false true).run
          [(envAt 105, Event.iceState "connected"), (envAt 106, Event.iceState "disconnected"),
            (envAt 109, Event.iceState "connected")]) =
      Except.map (fun out => out.1._connectDuration)
        ((sampleRelay true false true).run [(envAt 105, Event.iceState "connected")])) := by
  decide

/-- C9, amended. The connect duration is assigned at every false-to-true transition of the
connected flag, not only the first: whenever an ICE state report returns, the duration is the
current time less the connect start time if the relay was not closing, was not connected and the
reported state is `connected` or `completed`, and is unchanged otherwise. The report does return
on every relay that is closing or is an answerer or has its peer connection and data channel. -/
theorem setIceState_connectDuration (r : PeerRelay) (env : Env) (state : String) :
    (∀ out, r._setIceState env state = Except.ok out →
      out.1._connectDuration =
        if r._closing = false ∧ r._isConnected = false ∧
            (state = "connected" ∨ state = "completed") then
          env.now - r._connectStartTime
        else r._connectDuration) ∧
    ((r._closing = false → r._isOfferer = true →
        r._peerConnection.isSome = true ∧ r._dataChannel.isSome = true) →
      ∃ out, r._setIceState env state = Except.ok out) := by
  rcases Bool.eq_false_or_eq_true r._closing with hclosing | hclosing
  · rw [setIceState_closing r env state hclosing]
    refine ⟨?_, fun _ => ⟨_, rfl⟩⟩
    intro out h
    cases h
    simp [hclosing]
  · refine ⟨?_, fun hready => setIceState_returns r env state hclosing (hready hclosing)⟩
    intro out h
    obtain ⟨dc, t, heq, _⟩ := setIceState_frame r env state out hclosing h
    rw [heq, setConnected_relay]
    rcases Bool.eq_false_or_eq_true (state == "connected" || state == "completed") with hc | hc <;>
    rcases Bool.eq_false_or_eq_true r._isConnected with hconn | hconn <;>
    simp [hc, hconn, hclosing] <;>
    simp [Bool.or_eq_true, Bool.or_eq_false_iff] at hc <;>
    simp [hc]

/-- C9, amended, at the second transition of the counterexample: the relay was connected at 105
and has been disconnected since; the report `connected` at 109 returns and sets the duration
to 9. -/
theorem setIceState_connectDuration_witness :
    ∃ out, { sampleRelay true false true with
          _connectDuration := 5, _iceState := "disconnected" }._setIceState
        (envAt 109) "connected" = Except.ok out ∧ out.1._connectDuration = 9 :=
  ((setIceState_connectDuration { sampleRelay true false true with
        _connectDuration := 5, _iceState := "disconnected" } (envAt 109) "connected").2
      (fun _ _ => by decide)).imp fun out h =>
    ⟨h, ((setIceState_connectDuration { sampleRelay true false true with
        _connectDuration := 5, _iceState := "disconnected" } (envAt 109) "connected").1 out
      h).trans (by decide)⟩


/-! ## Construction -/

/-- What the constructor establishes whenever it returns: the relay is not closing and not
connected, its local socket exists, its game address is `127.0.0.1` with the port of the options,
it has the role of the options, and if it is the offerer it has a peer connection and a data
channel. -/
theorem construct_establishes (decl : Declared) (options : Options) (callbacks : Callbacks)
    (cenv : ConstructionEnv) (out : PeerRelay × List Effect)
    (h : PeerRelay.construct decl options callbacks cenv = Except.ok out) :
    out.1._closing = false ∧ out.1._isConnected = false ∧ out.1._localUdpSocket = true ∧
    out.1._gameUdpAddress = { host := "127.0.0.1", port := options.gameUdpPort } ∧
    out.1._isOfferer = options.isOfferer ∧
    (out.1._isOfferer = true →
      out.1._peerConnection.isSome = true ∧ out.1._dataChannel.isSome = true) := by
  rcases Bool.eq_false_or_eq_true cenv.socketCreated with hs | hs <;>
  rcases Bool.eq_false_or_eq_true options.isOfferer with ho | ho <;>
  rcases Bool.eq_false_or_eq_true cenv.peerConnectionCreated with hp | hp <;>
  rcases Bool.eq_false_or_eq_true cenv.env.dataChannelCreated with hd | hd <;>
  simp [PeerRelay.construct, PeerRelay._createOffer, Timer.start, Timer.stop, hs, ho, hp, hd]
    at h <;>
  subst h <;>
  simp [ho]


/-! ## The answerer -/

/-- On an answerer every handler returns, keeps the role, leaves the timer and the data channel
as they were, and makes no `CreateOffer`, no `CreateDataChannel` and no delayed post. -/
theorem handle_answerer (r : PeerRelay) (env : Env) (ev : Event) (hans : r._isOfferer = false) :
    ∃ out, r.handle env ev = Except.ok out ∧ out.1._isOfferer = false ∧
      out.1._offererConnectionCheckTimer = r._offererConnectionCheckTimer ∧
      out.1._dataChannel = r._dataChannel ∧
      out.2.all (fun x => !x.isCreateOffer && !x.isCreateDataChannel &&
        !x.isThreadPostDelayed) = true := by
  cases ev with
  | iceState state =>
    rcases Bool.eq_false_or_eq_true r._closing with hclosing | hclosing
    · refine ⟨_, setIceState_closing r env state hclosing, hans, rfl, rfl, ?_⟩
      simp [Effect.isCreateOffer, Effect.isCreateDataChannel, Effect.isThreadPostDelayed]
    · have heq := setIceState_eq r env state hclosing
      have hcond : (r._isOfferer &&
          (state == "failed" || state == "disconnected" || state == "closed")) = false := by
        rw [hans, Bool.false_and]
      rw [hcond] at heq
      simp only [Bool.false_eq_true, if_false] at heq
      obtain ⟨_, _, f3, _, f5, _⟩ := setConnected_frame
        ({ r with _iceState := state } : PeerRelay) env
        (state == "connected" || state == "completed")
      refine ⟨_, heq, f3.trans hans, setConnected_timer _ env _, f5, ?_⟩
      rcases Bool.eq_false_or_eq_true (state == "connected" || state == "completed")
        with hc | hc <;>
      rcases Bool.eq_false_or_eq_true r._isConnected with hconn | hconn <;>
      rcases Bool.eq_false_or_eq_true r._callbacks.connectedCallback with hcb | hcb <;>
      rcases Bool.eq_false_or_eq_true r._callbacks.stateCallback with hsb | hsb <;>
      rcases Bool.eq_false_or_eq_true r._peerConnection.isSome with hpc | hpc <;>
      simp [PeerRelay._setConnected, hc, hconn, hcb, hsb, hpc, Effect.isCreateOffer,
        Effect.isCreateDataChannel, Effect.isThreadPostDelayed]
  | checkConnection =>
    exact ⟨(r, []), by simp [PeerRelay.handle, PeerRelay._checkConnection, hans], hans, rfl, rfl,
      rfl⟩
  | remoteMessage data =>
    refine ⟨_, rfl, ?_, ?_, ?_, ?_⟩ <;>
    · simp only [PeerRelay._onRemoteMessage, hans, Bool.false_and, Bool.false_eq_true, if_false]
      split <;> try split
      all_goals simp [hans, Effect.isCreateOffer, Effect.isCreateDataChannel,
        Effect.isThreadPostDelayed]
  | peerdataFromGame socket =>
    refine ⟨_, rfl, ?_, ?_, ?_, ?_⟩ <;>
    · simp only [PeerRelay._onPeerdataFromGame]
      split <;> try split
      all_goals simp [hans, Effect.isCreateOffer, Effect.isCreateDataChannel,
        Effect.isThreadPostDelayed]

/-- On an answerer every run returns, keeps the role, leaves the timer and the data channel as
they were, and makes no `CreateOffer`, no `CreateDataChannel` and no delayed post. -/
theorem run_answerer : ∀ (events : List (Env × Event)) (r : PeerRelay),
    r._isOfferer = false →
    ∃ out, r.run events = Except.ok out ∧ out.1._isOfferer = false ∧
      out.1._offererConnectionCheckTimer = r._offererConnectionCheckTimer ∧
      out.1._dataChannel = r._dataChannel ∧
      out.2.all (fun x => !x.isCreateOffer && !x.isCreateDataChannel &&
        !x.isThreadPostDelayed) = true
  | [], r, hans => ⟨(r, []), rfl, hans, rfl, rfl, rfl⟩
  | (env, ev) :: rest, r, hans => by
    obtain ⟨out1, h1, ho1, ht1, hd1, hc1⟩ := handle_answerer r env ev hans
    obtain ⟨r1, e1⟩ := out1
    obtain ⟨out2, h2, ho2, ht2, hd2, hc2⟩ := run_answerer rest r1 ho1
    obtain ⟨r2, e2⟩ := out2
    refine ⟨(r2, e1 ++ e2), ?_, ho2, ht2.trans ht1, hd2.trans hd1, ?_⟩
    · simp only [PeerRelay.run, h1, h2]
    · rw [List.all_append, hc1, hc2]
      rfl

/-- C8. For every answerer (`isOfferer = false` in the options), whatever the environment and
the events that follow construction (ICE state reports of any value, liveness ticks, inbound
data-channel messages, game datagrams): whenever construction and the events have returned, no
`CreateOffer` was issued, no data channel was created, no delayed message was posted for the
timer, and the timer is not started. As this holds of every sequence it holds at every point of
one. Construction and the events do return whenever the local socket could be created. -/
theorem answerer_never_offers (decl : Declared) (options : Options) (callbacks : Callbacks)
    (cenv : ConstructionEnv) (events : List (Env × Event)) (hans : options.isOfferer = false) :
    (∀ out, PeerRelay.life decl options callbacks cenv events = Except.ok out →
      out.2.any Effect.isCreateOffer = false ∧
      out.2.any Effect.isCreateDataChannel = false ∧
      out.2.any Effect.isThreadPostDelayed = false ∧
      out.1._offererConnectionCheckTimer.started = false) ∧
    (cenv.socketCreated = true →
      ∃ out, PeerRelay.life decl options callbacks cenv events = Except.ok out) := by
  rcases Bool.eq_false_or_eq_true cenv.socketCreated with hs | hs
  · have hcon : ∃ r0 e0, PeerRelay.construct decl options callbacks cenv = Except.ok (r0, e0) ∧
        r0._isOfferer = false ∧ r0._offererConnectionCheckTimer = Timer.create ∧
        r0._dataChannel = none ∧
        e0.all (fun x => !x.isCreateOffer && !x.isCreateDataChannel &&
          !x.isThreadPostDelayed) = true := by
      simp only [PeerRelay.construct, hs, hans, Bool.not_true, Bool.false_eq_true, if_false]
      refine ⟨_, _, rfl, rfl, rfl, rfl, ?_⟩
      rcases Bool.eq_false_or_eq_true cenv.peerConnectionCreated with hp | hp <;>
      rcases Bool.eq_false_or_eq_true (cenv.bindResult != 0) with hb | hb <;>
      simp [hp, hb, Effect.isCreateOffer, Effect.isCreateDataChannel,
        Effect.isThreadPostDelayed]
    obtain ⟨r0, e0, hc0, ho0, ht0, hd0, hcl0⟩ := hcon
    obtain ⟨out1, h1, _, ht1, hd1, hcl1⟩ := run_answerer events r0 ho0
    obtain ⟨r1, e1⟩ := out1
    have hlife : PeerRelay.life decl options callbacks cenv events = Except.ok (r1, e0 ++ e1) := by
      simp only [PeerRelay.life, hc0, h1]
    refine ⟨?_, fun _ => ⟨_, hlife⟩⟩
    intro out h
    rw [hlife] at h
    cases h
    have hall : (e0 ++ e1).all (fun x => !x.isCreateOffer && !x.isCreateDataChannel &&
        !x.isThreadPostDelayed) = true := by
      rw [List.all_append, hcl0, hcl1]
      rfl
    simp only [List.all_eq_true, Bool.and_eq_true, Bool.not_eq_true'] at hall
    refine ⟨?_, ?_, ?_, ?_⟩
    · simp only [List.any_eq_false]
      intro x hx
      simp [(hall x hx).1.1]
    · simp only [List.any_eq_false]
      intro x hx
      simp [(hall x hx).1.2]
    · simp only [List.any_eq_false]
      intro x hx
      simp [(hall x hx).2]
    · show r1._offererConnectionCheckTimer.started = false
      rw [ht1, ht0]
      rfl
  · refine ⟨?_, fun h => absurd h (by simp [hs])⟩
    intro out h
    simp [PeerRelay.life, PeerRelay.construct, hs] at h

/-- C8 on an answerer that is told `connected`, ticked, sent a PING, given a game datagram and
told `failed`: the run returns and holds no `CreateOffer`. -/
theorem answerer_never_offers_witness :
    ∃ out, PeerRelay.life sampleDeclared
        { iceServers := [], remotePlayerId := 42, remotePlayerLogin := "alice",
          isOfferer := false, gameUdpPort := 6112 }
        { stateCallback := true, connectedCallback := true }
        { socketCreated := true, bindResult := 0, localPort := 50000,
          peerConnectionCreated := true, env := envAt 100 }
        [(envAt 105, Event.iceState "connected"), (envAt 110, Event.checkConnection),
          (envAt 111, Event.remoteMessage PingMessage),
          (envAt 112, Event.peerdataFromGame { pending := some [1, 2, 3, 4] }),
          (envAt 113, Event.iceState "failed")] = Except.ok out ∧
      out.2.any Effect.isCreateOffer = false :=
  ((answerer_never_offers sampleDeclared
        { iceServers := [], remotePlayerId := 42, remotePlayerLogin := "alice",
          isOfferer := false, gameUdpPort := 6112 }
        { stateCallback := true, connectedCallback := true }
        { socketCreated := true, bindResult := 0, localPort := 50000,
          peerConnectionCreated := true, env := envAt 100 }
        [(envAt 105, Event.iceState "connected"), (envAt 110, Event.checkConnection),
          (envAt 111, Event.remoteMessage PingMessage),
          (envAt 112, Event.peerdataFromGame { pending := some [1, 2, 3, 4] }),
          (envAt 113, Event.iceState "failed")] rfl).2 rfl).imp fun out h =>
    ⟨h, ((answerer_never_offers sampleDeclared
        { iceServers := [], remotePlayerId := 42, remotePlayerLogin := "alice",
          isOfferer := false, gameUdpPort := 6112 }
        { stateCallback := true, connectedCallback := true }
        { socketCreated := true, bindResult := 0, localPort := 50000,
          peerConnectionCreated := true, env := envAt 100 }
        [(envAt 105, Event.iceState "connected"), (envAt 110, Event.checkConnection),
          (envAt 111, Event.remoteMessage PingMessage),
          (envAt 112, Event.peerdataFromGame { pending := some [1, 2, 3, 4] }),
          (envAt 113, Event.iceState "failed")] rfl).1 out h).1⟩


/-! ## Offer creation on lost connections -/

/-- The calls `_setConnected` makes: none without a change of the flag, else the connected
callback, if set, and the log record. -/
theorem setConnected_effects (r : PeerRelay) (env : Env) (connected : Bool) :
    (r._setConnected env connected).2 =
      if connected = r._isConnected then []
      else (if r._callbacks.connectedCallback = true then [Effect.connectedCallback connected]
        else []) ++ [Effect.log LogLevel.info] := by
  cases connected <;> cases h : r._isConnected <;> simp [PeerRelay._setConnected, h]

/-- On an offerer with a peer connection and no data channel yet, `_createOffer` returns when
`CreateDataChannel` hands out a channel: it creates the channel `faf`, unordered and without
retransmits, registers the observer, issues `CreateOffer` without the restart flag and starts the
timer. -/
theorem createOffer_first (r : PeerRelay) (env : Env) (hoff : r._isOfferer = true)
    (hpc : r._peerConnection.isSome = true) (hdc : r._dataChannel = none)
    (hcr : env.dataChannelCreated = true) :
    r._createOffer env =
      Except.ok ({ r with
          _dataChannel := some { label := "faf", init := { ordered := false, maxRetransmits := 0 } },
          _offererConnectionCheckTimer :=
            { _interval := r._connectionCheckIntervalMs, _callback := true } },
        [Effect.createDataChannel "faf" { ordered := false, maxRetransmits := 0 },
          Effect.registerObserver,
          Effect.createOffer
            { offer_to_receive_audio := 0, offer_to_receive_video := 0, ice_restart := false },
          Effect.threadClear, Effect.threadClear,
          Effect.threadPostDelayed r._connectionCheckIntervalMs]) := by
  obtain ⟨pc, hpc⟩ := Option.isSome_iff_exists.mp hpc
  simp [PeerRelay._createOffer, hoff, hpc, hdc, hcr, Timer.start, Timer.stop]

/-- Whenever `_createOffer` returns on an offerer, it has issued `CreateOffer` exactly once and
invoked no callback. -/
theorem createOffer_effects (r : PeerRelay) (env : Env) (out : PeerRelay × List Effect)
    (hoff : r._isOfferer = true) (h : r._createOffer env = Except.ok out) :
    out.2.countP Effect.isCreateOffer = 1 ∧ out.2.any Effect.isCallback = false ∧
    out.2.any Effect.isPingSend = false := by
  rcases Option.eq_none_or_eq_some r._peerConnection with hpc | ⟨pc, hpc⟩
  · rcases Option.eq_none_or_eq_some r._dataChannel with hdc | ⟨dc, hdc⟩ <;>
    simp [PeerRelay._createOffer, hoff, hpc, hdc] at h
  · rcases Option.eq_none_or_eq_some r._dataChannel with hdc | ⟨dc, hdc⟩
    · rcases Bool.eq_false_or_eq_true env.dataChannelCreated with hcr | hcr
      · rw [createOffer_first r env hoff (by simp [hpc]) hdc hcr] at h
        cases h
        exact ⟨rfl, rfl, rfl⟩
      · simp [PeerRelay._createOffer, hoff, hpc, hdc, hcr] at h
    · rw [createOffer_ready r env hoff (by simp [hpc]) (by simp [hdc])] at h
      cases h
      exact ⟨rfl, rfl, rfl⟩


/-- C11. On an offerer that is not closing and has a peer connection, a report of `failed`,
`disconnected` or `closed` invokes offer creation exactly once within the call: whenever the
call returns, its calls split into a part without `CreateOffer` that holds
connected-callback(false), when the relay was connected and the callback is set, and the state
callback, when set, followed by the part `_createOffer` made, which holds exactly one
`CreateOffer` and no callback. The call returns when the relay has its data channel or the ICE
stack hands one out. A report of any other state string returns and holds no `CreateOffer`. -/
theorem setIceState_offerer_restart (r : PeerRelay) (env : Env) (state : String)
    (hclosing : r._closing = false) (hoff : r._isOfferer = true)
    (hpc : r._peerConnection.isSome = true) :
    ((state = "failed" ∨ state = "disconnected" ∨ state = "closed") →
      (∀ out, r._setIceState env state = Except.ok out →
        out.2.countP Effect.isCreateOffer = 1 ∧
        ∃ before after, out.2 = before ++ after ∧
          before.any Effect.isCreateOffer = false ∧
          after.countP Effect.isCreateOffer = 1 ∧
          after.any Effect.isCallback = false ∧
          (r._isConnected = true → r._callbacks.connectedCallback = true →
            Effect.connectedCallback false ∈ before) ∧
          (r._callbacks.stateCallback = true → Effect.stateCallback state ∈ before)) ∧
      ((r._dataChannel.isSome = true ∨ env.dataChannelCreated = true) →
        ∃ out, r._setIceState env state = Except.ok out)) ∧
    (¬ (state = "failed" ∨ state = "disconnected" ∨ state = "closed") →
      ∃ out, r._setIceState env state = Except.ok out ∧
        out.2.any Effect.isCreateOffer = false) := by
  obtain ⟨_, _, f3, f4, f5, _⟩ := setConnected_frame ({ r with _iceState := state } : PeerRelay)
    env (state == "connected" || state == "completed")
  rw [setIceState_eq r env state hclosing]
  constructor
  · intro hstate
    have hf : (r._isOfferer &&
        (state == "failed" || state == "disconnected" || state == "closed")) = true := by
      rw [hoff]
      rcases hstate with h | h | h <;> simp [h]
    have hc : (state == "connected" || state == "completed") = false := by
      rcases hstate with h | h | h <;> subst h <;> decide
    rw [hf]
    simp only [if_true]
    constructor
    · intro out h
      cases hco : (({ r with _iceState := state } : PeerRelay)._setConnected env
          (state == "connected" || state == "completed")).1._createOffer env with
      | error f => rw [hco] at h; cases h
      | ok out2 =>
        obtain ⟨r2, e4⟩ := out2
        rw [hco] at h
        cases h
        obtain ⟨hcount, hcb, _⟩ := createOffer_effects _ env (r2, e4) (f3.trans hoff) hco
        have hbefore : ([Effect.log LogLevel.debug] ++
            (({ r with _iceState := state } : PeerRelay)._setConnected env
              (state == "connected" || state == "completed")).2 ++
            (if r._peerConnection.isSome then [Effect.getStats] else []) ++
            (if r._callbacks.stateCallback then [Effect.stateCallback state] else []) ++
            [Effect.log LogLevel.warn]).any Effect.isCreateOffer = false := by
          rw [setConnected_effects, hc]
          rcases Bool.eq_false_or_eq_true r._isConnected with hconn | hconn <;>
          rcases Bool.eq_false_or_eq_true r._callbacks.connectedCallback with hcc | hcc <;>
          rcases Bool.eq_false_or_eq_true r._callbacks.stateCallback with hsc | hsc <;>
          simp [hconn, hcc, hsc, hpc, Effect.isCreateOffer]
        refine ⟨?_, _, e4, rfl, hbefore, hcount, hcb, ?_, ?_⟩
        · show List.countP Effect.isCreateOffer (_ ++ e4) = 1
          rw [List.countP_append, hcount, Nat.add_left_eq_self, List.countP_eq_zero]
          intro x hx
          have := List.any_eq_false.mp hbefore x hx
          simpa using this
        · intro hconn hcc
          rw [setConnected_effects, hc]
          simp [hconn, hcc]
        · intro hsc
          simp [hsc]
    · intro hchannel
      rcases Option.eq_none_or_eq_some r._dataChannel with hdc | ⟨dc, hdc⟩
      · have hcr : env.dataChannelCreated = true := by
          rcases hchannel with h | h
          · simp [hdc] at h
          · exact h
        rw [createOffer_first _ env (f3.trans hoff) (by rw [f4]; exact hpc)
          (f5.trans hdc) hcr]
        exact ⟨_, rfl⟩
      · rw [createOffer_ready _ env (f3.trans hoff) (by rw [f4]; exact hpc)
          (by rw [f5]; simp [hdc])]
        exact ⟨_, rfl⟩
  · intro hstate
    have hf : (r._isOfferer &&
        (state == "failed" || state == "disconnected" || state == "closed")) = false := by
      rw [hoff, Bool.true_and, Bool.eq_false_iff]
      intro h
      apply hstate
      simpa [Bool.or_eq_true, or_assoc] using h
    rw [hf]
    simp only [Bool.false_eq_true, if_false]
    refine ⟨_, rfl, ?_⟩
    rw [setConnected_effects]
    rcases Bool.eq_false_or_eq_true (state == "connected" || state == "completed")
      with hc | hc <;>
    rcases Bool.eq_false_or_eq_true r._isConnected with hconn | hconn <;>
    rcases Bool.eq_false_or_eq_true r._callbacks.connectedCallback with hcc | hcc <;>
    rcases Bool.eq_false_or_eq_true r._callbacks.stateCallback with hsc | hsc <;>
    simp [hc, hconn, hcc, hsc, hpc, Effect.isCreateOffer]


/-- C11 on a connected offerer with both callbacks set: `failed` at clock 300 returns with
exactly one `CreateOffer`; `checking` returns with none. -/
theorem setIceState_offerer_restart_witness :
    (∃ out, (sampleRelay true true true)._setIceState (envAt 300) "failed" = Except.ok out ∧
      out.2.countP Effect.isCreateOffer = 1) ∧
    (∃ out, (sampleRelay true true true)._setIceState (envAt 300) "checking" = Except.ok out ∧
      out.2.any Effect.isCreateOffer = false) :=
  ⟨(((setIceState_offerer_restart (sampleRelay true true true) (envAt 300) "failed"
        (by decide) (by decide) (by decide)).1 (Or.inl rfl)).2 (Or.inl (by decide))).imp
      fun out h => ⟨h, (((setIceState_offerer_restart (sampleRelay true true true) (envAt 300)
        "failed" (by decide) (by decide) (by decide)).1 (Or.inl rfl)).1 out h).1⟩,
   (setIceState_offerer_restart (sampleRelay true true true) (envAt 300) "checking"
      (by decide) (by decide) (by decide)).2 (by decide)⟩

/-! ## Sequences of offer creations -/

/-- On an offerer with a peer connection and a data channel every sequence of offer creations
returns: each call issues `CreateOffer` with the restart flag, audio and video declined, starts
the timer and creates no channel; the data channel stays the one it was. -/
theorem createOffers_ready : ∀ (envs : List Env) (r : PeerRelay), r._isOfferer = true →
    r._peerConnection.isSome = true → r._dataChannel.isSome = true →
    ∃ r2, r.createOffers envs = Except.ok (r2, envs.map fun _ =>
        [Effect.createOffer
            { offer_to_receive_audio := 0, offer_to_receive_video := 0, ice_restart := true },
          Effect.threadClear, Effect.threadClear,
          Effect.threadPostDelayed r._connectionCheckIntervalMs]) ∧
      r2._dataChannel = r._dataChannel
  | [], r, _, _, _ => ⟨r, rfl, rfl⟩
  | env :: rest, r, hoff, hpc, hdc => by
    obtain ⟨r2, h2, hd2⟩ := createOffers_ready rest
      { r with _offererConnectionCheckTimer :=
          { _interval := r._connectionCheckIntervalMs, _callback := true } } hoff hpc hdc
    refine ⟨r2, ?_, hd2⟩
    simp only [PeerRelay.createOffers, createOffer_ready r env hoff hpc hdc, h2, List.map_cons]

/-- C12. For every sequence of `n ≥ 1` offer creations on an offerer with a peer connection,
counted from the first one, when the relay has no data channel yet: whenever the calls have
returned, the first has created the data channel `faf` with `ordered = false` and
`maxRetransmits = 0`, registered the observer and issued `CreateOffer` with
`ice_restart = false`; each of the `n - 1` later calls has created no channel and issued
`CreateOffer` with `ice_restart = true`; every `CreateOffer` declines audio and video; and the
data channel at the end is the one the first call created. The calls return when
`CreateDataChannel` hands out a channel on the first. -/
theorem createOffers_channel_once (r : PeerRelay) (env : Env) (later : List Env)
    (hoff : r._isOfferer = true) (hpc : r._peerConnection.isSome = true)
    (hdc : r._dataChannel = none) :
    (∀ out, r.createOffers (env :: later) = Except.ok out →
      out.2 =
        [Effect.createDataChannel "faf" { ordered := false, maxRetransmits := 0 },
          Effect.registerObserver,
          Effect.createOffer
            { offer_to_receive_audio := 0, offer_to_receive_video := 0, ice_restart := false },
          Effect.threadClear, Effect.threadClear,
          Effect.threadPostDelayed r._connectionCheckIntervalMs] ::
        later.map (fun _ =>
          [Effect.createOffer
              { offer_to_receive_audio := 0, offer_to_receive_video := 0, ice_restart := true },
            Effect.threadClear, Effect.threadClear,
            Effect.threadPostDelayed r._connectionCheckIntervalMs]) ∧
      out.1._dataChannel =
        some { label := "faf", init := { ordered := false, maxRetransmits := 0 } }) ∧
    (env.dataChannelCreated = true → ∃ out, r.createOffers (env :: later) = Except.ok out) := by
  rcases Bool.eq_false_or_eq_true env.dataChannelCreated with hcr | hcr
  · obtain ⟨r2, h2, hd2⟩ := createOffers_ready later
      { r with
        _dataChannel := some { label := "faf", init := { ordered := false, maxRetransmits := 0 } },
        _offererConnectionCheckTimer :=
          { _interval := r._connectionCheckIntervalMs, _callback := true } } hoff hpc rfl
    have hrun : r.createOffers (env :: later) = Except.ok (r2,
        [Effect.createDataChannel "faf" { ordered := false, maxRetransmits := 0 },
          Effect.registerObserver,
          Effect.createOffer
            { offer_to_receive_audio := 0, offer_to_receive_video := 0, ice_restart := false },
          Effect.threadClear, Effect.threadClear,
          Effect.threadPostDelayed r._connectionCheckIntervalMs] ::
        later.map (fun _ =>
          [Effect.createOffer
              { offer_to_receive_audio := 0, offer_to_receive_video := 0, ice_restart := true },
            Effect.threadClear, Effect.threadClear,
            Effect.threadPostDelayed r._connectionCheckIntervalMs])) := by
      simp only [PeerRelay.createOffers, createOffer_first r env hoff hpc hdc hcr, h2]
    refine ⟨?_, fun _ => ⟨_, hrun⟩⟩
    intro out h
    rw [hrun] at h
    cases h
    exact ⟨rfl, hd2⟩
  · obtain ⟨pc, hpc⟩ := Option.isSome_iff_exists.mp hpc
    refine ⟨?_, fun h => absurd h (by simp [hcr])⟩
    intro out h
    simp [PeerRelay.createOffers, PeerRelay._createOffer, hoff, hpc, hdc, hcr] at h

/-- C12 for three offer creations on an offerer that has a peer connection and no data channel
yet: one channel, created by the first call, and the restart flag on the second and third. -/
theorem createOffers_channel_once_witness :
    ∃ out, (sampleRelay true false false).createOffers [envAt 100, envAt 200, envAt 300] =
        Except.ok out ∧
      out.2.map (fun e => e.countP Effect.isCreateDataChannel) = [1, 0, 0] ∧
      out.1._dataChannel =
        some { label := "faf", init := { ordered := false, maxRetransmits := 0 } } :=
  ((createOffers_channel_once (sampleRelay true false false) (envAt 100)
      [envAt 200, envAt 300] (by decide) (by decide) (by decide)).2 (by decide)).imp
    fun out h =>
      ⟨h, by
        rw [((createOffers_channel_once (sampleRelay true false false) (envAt 100)
          [envAt 200, envAt 300] (by decide) (by decide) (by decide)).1 out h).1]
        decide,
       ((createOffers_channel_once (sampleRelay true false false) (envAt 100)
          [envAt 200, envAt 300] (by decide) (by decide) (by decide)).1 out h).2⟩


/-! ## The liveness tick -/

/-- A tick on a connected offerer is the missed-ping rule, the 15-second rule and the PING, in
this order; on an offerer that is not connected it is offer creation; on an answerer it is
nothing. -/
theorem checkConnection_steps (r : PeerRelay) (env : Env) :
    r._checkConnection env =
      if r._isOfferer then
        if !r.isConnected then
          match r._createOffer env with
          | Except.error f => Except.error f
          | Except.ok (r1, e1) => Except.ok (r1, [Effect.log LogLevel.info] ++ e1)
        else
          match r.missedPingRule env with
          | Except.error f => Except.error f
          | Except.ok (r2, e2) =>
            match r2.noPongRule env with
            | Except.error f => Except.error f
            | Except.ok (r3, e3) => Except.ok ((r3.sendPing env).1, e2 ++ e3 ++ (r3.sendPing env).2)
      else
        Except.ok (r, []) := by
  unfold PeerRelay._checkConnection PeerRelay.missedPingRule PeerRelay.noPongRule
    PeerRelay.sendPing
  split
  · split
    · rfl
    · simp only
      split
      · rfl
      · split
        · rfl
        · split <;> simp
  · rfl


/-- Whenever the missed-ping rule returns, it has changed at most the data channel, the timer
and the counter, which it has raised by one exactly when a ping was sent and no pong received. -/
theorem missedPingRule_frame (r : PeerRelay) (env : Env) (out : PeerRelay × List Effect)
    (h : r.missedPingRule env = Except.ok out) :
    ∃ dc t, out.1 = { r with
        _dataChannel := dc, _offererConnectionCheckTimer := t,
        _missedPings :=
          (if (r._lastSentPingTime.isSome && !r._lastReceivedPongTime.isSome) = true
            then r._missedPings + 1 else r._missedPings) } ∧
      (r._dataChannel.isSome = true → dc.isSome = true) := by
  unfold PeerRelay.missedPingRule at h
  split at h
  · rename_i hcond
    rw [if_pos hcond]
    dsimp only at h
    split at h
    · split at h
      · cases h
      · rename_i r2 e2 hco
        cases h
        obtain ⟨dc, t, heq, hsome⟩ := createOffer_frame _ env (r2, e2) hco
        exact ⟨dc, t, heq, hsome⟩
    · cases h
      exact ⟨r._dataChannel, r._offererConnectionCheckTimer, rfl, id⟩
  · rename_i hcond
    rw [if_neg hcond]
    cases h
    exact ⟨r._dataChannel, r._offererConnectionCheckTimer, rfl, id⟩

/-- Whenever the 15-second rule returns, it has changed at most the data channel and the
timer. -/
theorem noPongRule_frame (r : PeerRelay) (env : Env) (out : PeerRelay × List Effect)
    (h : r.noPongRule env = Except.ok out) :
    ∃ dc t, out.1 = { r with _dataChannel := dc, _offererConnectionCheckTimer := t } ∧
      (r._dataChannel.isSome = true → dc.isSome = true) := by
  unfold PeerRelay.noPongRule at h
  split at h
  · dsimp only at h
    split at h
    · split at h
      · cases h
      · rename_i r3 e3 hco
        cases h
        exact createOffer_frame _ env (r3, e3) hco
    · cases h
      exact ⟨r._dataChannel, r._offererConnectionCheckTimer, rfl, id⟩
  · cases h
    exact ⟨r._dataChannel, r._offererConnectionCheckTimer, rfl, id⟩

/-- Whenever a tick returns, it has changed at most the data channel, the timer, the counter of
missed pings and the two keepalive times: the counter is raised by one exactly on a connected
offerer that has sent a ping and received no pong, and the times become the current time and
empty exactly on a connected offerer that has a data channel. -/
theorem checkConnection_frame (r : PeerRelay) (env : Env) (out : PeerRelay × List Effect)
    (h : r._checkConnection env = Except.ok out) :
    ∃ dc t, out.1 = { r with
        _dataChannel := dc, _offererConnectionCheckTimer := t,
        _missedPings :=
          (if (r._isOfferer && r._isConnected && r._lastSentPingTime.isSome &&
              !r._lastReceivedPongTime.isSome) = true
            then r._missedPings + 1 else r._missedPings),
        _lastSentPingTime :=
          (if (r._isOfferer && r._isConnected && dc.isSome) = true then some env.now
            else r._lastSentPingTime),
        _lastReceivedPongTime :=
          (if (r._isOfferer && r._isConnected && dc.isSome) = true then none
            else r._lastReceivedPongTime) } ∧
      (r._dataChannel.isSome = true → dc.isSome = true) := by
  rw [checkConnection_steps] at h
  rcases Bool.eq_false_or_eq_true r._isOfferer with hoff | hoff
  · rcases Bool.eq_false_or_eq_true r._isConnected with hconn | hconn
    · simp only [hoff, PeerRelay.isConnected, hconn, Bool.not_true, Bool.false_eq_true,
        if_true, if_false] at h
      cases hmiss : r.missedPingRule env with
      | error f => rw [hmiss] at h; cases h
      | ok out2 =>
        obtain ⟨r2, e2⟩ := out2
        rw [hmiss] at h
        simp only at h
        cases hlate : r2.noPongRule env with
        | error f => rw [hlate] at h; cases h
        | ok out3 =>
          obtain ⟨r3, e3⟩ := out3
          rw [hlate] at h
          simp only at h
          cases h
          obtain ⟨dc2, t2, heq2, hsome2⟩ := missedPingRule_frame r env _ hmiss
          obtain ⟨dc3, t3, heq3, hsome3⟩ := noPongRule_frame r2 env _ hlate
          simp only at heq2 heq3
          have hdc2 : r2._dataChannel = dc2 := by rw [heq2]
          have hdc3 : r3._dataChannel = dc3 := by rw [heq3]
          refine ⟨dc3, t3, ?_, fun hr => hsome3 (by rw [hdc2]; exact hsome2 hr)⟩
          clear hmiss hlate hsome2 hsome3 hdc2 hdc3
          subst heq2
          subst heq3
          rcases Bool.eq_false_or_eq_true dc3.isSome with hd | hd <;>
          simp [PeerRelay.sendPing, hd, hoff, hconn]
    · simp only [hoff, PeerRelay.isConnected, hconn, Bool.not_false, if_true] at h
      cases hco : r._createOffer env with
      | error f => rw [hco] at h; cases h
      | ok out1 =>
        obtain ⟨r1, e1⟩ := out1
        rw [hco] at h
        simp only at h
        cases h
        obtain ⟨dc, t, heq, hsome⟩ := createOffer_frame _ env _ hco
        refine ⟨dc, t, ?_, hsome⟩
        simp only at heq
        subst heq
        simp [hoff, hconn]
  · simp only [hoff, Bool.false_eq_true, if_false] at h
    cases h
    refine ⟨r._dataChannel, r._offererConnectionCheckTimer, ?_, id⟩
    cases r
    simp only at hoff
    subst hoff
    simp


/-- C13, as stated, fails: on a connected offerer with its keepalive state cleared and a data
channel, two consecutive ticks with no PONG in between only send two PINGs. The second tick
counts the first missed ping and no offer creation is invoked. -/
theorem checkConnection_second_tick_counterexample :
    (sampleRelay true true true).run
        [(envAt 200, Event.checkConnection), (envAt 300, Event.checkConnection)] =
      Except.ok ({ sampleRelay true true true with
          _missedPings := 1, _lastSentPingTime := some 300 },
        [Effect.dataChannelSend PingMessage true, Effect.dataChannelSend PingMessage true]) ∧
    ¬ (Except.map (fun out => out.2.any Effect.isCreateOffer)
        ((sampleRelay true true true).run
          [(envAt 200, Event.checkConnection), (envAt 300, Event.checkConnection)]) =
      Except.ok true) := by
  decide

/-- C13, amended. On a connected offerer whose keepalive state is cleared and that has a data
channel and its peer connection, three consecutive ticks with no PONG in between invoke offer
creation on the third tick and not before: the first two ticks return having made only the two
PING sends, with one missed ping counted, and the third counts the second missed ping, issues
`CreateOffer` with the restart flag, starts the timer and sends the third PING. -/
theorem checkConnection_third_tick_restarts (r : PeerRelay) (env1 env2 env3 : Env)
    (hoff : r._isOfferer = true) (hconn : r._isConnected = true)
    (hmissed : r._missedPings = 0) (hsent : r._lastSentPingTime = none)
    (hrecv : r._lastReceivedPongTime = none) (hdc : r._dataChannel.isSome = true)
    (hpc : r._peerConnection.isSome = true) :
    r.run [(env1, Event.checkConnection), (env2, Event.checkConnection)] =
      Except.ok ({ r with _missedPings := 1, _lastSentPingTime := some env2.now },
        [Effect.dataChannelSend PingMessage true, Effect.dataChannelSend PingMessage true]) ∧
    r.run [(env1, Event.checkConnection), (env2, Event.checkConnection),
        (env3, Event.checkConnection)] =
      Except.ok ({ r with
          _missedPings := 2, _lastSentPingTime := some env3.now,
          _offererConnectionCheckTimer :=
            { _interval := r._connectionCheckIntervalMs, _callback := true } },
        [Effect.dataChannelSend PingMessage true, Effect.dataChannelSend PingMessage true,
          Effect.log LogLevel.info,
          Effect.createOffer
            { offer_to_receive_audio := 0, offer_to_receive_video := 0, ice_restart := true },
          Effect.threadClear, Effect.threadClear,
          Effect.threadPostDelayed r._connectionCheckIntervalMs,
          Effect.dataChannelSend PingMessage true]) := by
  obtain ⟨pc, hpcv⟩ := Option.isSome_iff_exists.mp hpc
  obtain ⟨dc, hdcv⟩ := Option.isSome_iff_exists.mp hdc
  clear hpc hdc
  cases r
  simp only at hoff hconn hmissed hsent hrecv hdcv hpcv
  subst hoff hconn hmissed hsent hrecv hdcv hpcv
  constructor <;>
  simp [PeerRelay.run, PeerRelay.handle, PeerRelay._checkConnection, PeerRelay._createOffer,
    PeerRelay.isConnected, PeerRelay.optionalGreater, Timer.start, Timer.stop]

/-- C13, amended, on the connected offerer of the counterexample: the third tick, at clock 400,
holds the `CreateOffer`. -/
theorem checkConnection_third_tick_restarts_witness :
    Except.map (fun out => out.2.countP Effect.isCreateOffer)
        ((sampleRelay true true true).run
          [(envAt 200, Event.checkConnection), (envAt 300, Event.checkConnection),
            (envAt 400, Event.checkConnection)]) = Except.ok 1 := by
  rw [(checkConnection_third_tick_restarts (sampleRelay true true true) (envAt 200) (envAt 300)
    (envAt 400) (by decide) (by decide) (by decide) (by decide) (by decide) (by decide)
    (by decide)).2]
  decide


/-! ## The ICE server list -/

/-- When the timer fires on an offerer that is not connected and has its peer connection and
data channel, the tick invokes offer creation, which starts the timer, and `OnMessage` then
posts its own rearm: two delayed posts follow the last `Clear`, so two firings are pending,
both due one interval later. -/
theorem OnMessage_restart (r : PeerRelay) (env : Env) (now : Int) (queue : List Int)
    (hcallback : r._offererConnectionCheckTimer._callback = true)
    (hoff : r._isOfferer = true) (hconn : r._isConnected = false)
    (hpc : r._peerConnection.isSome = true) (hdc : r._dataChannel.isSome = true) :
    Timer.OnMessage r env =
      Except.ok ({ r with _offererConnectionCheckTimer :=
          { _interval := r._connectionCheckIntervalMs, _callback := true } },
        [Effect.log LogLevel.info,
          Effect.createOffer
            { offer_to_receive_audio := 0, offer_to_receive_video := 0, ice_restart := true },
          Effect.threadClear, Effect.threadClear,
          Effect.threadPostDelayed r._connectionCheckIntervalMs,
          Effect.threadPostDelayed r._connectionCheckIntervalMs]) ∧
    Except.map (fun out => pendingAfter now queue out.2) (Timer.OnMessage r env) =
      Except.ok [now + r._connectionCheckIntervalMs, now + r._connectionCheckIntervalMs] := by
  have h : Timer.OnMessage r env =
      Except.ok ({ r with _offererConnectionCheckTimer :=
          { _interval := r._connectionCheckIntervalMs, _callback := true } },
        [Effect.log LogLevel.info,
          Effect.createOffer
            { offer_to_receive_audio := 0, offer_to_receive_video := 0, ice_restart := true },
          Effect.threadClear, Effect.threadClear,
          Effect.threadPostDelayed r._connectionCheckIntervalMs,
          Effect.threadPostDelayed r._connectionCheckIntervalMs]) := by
    simp [Timer.OnMessage, hcallback, PeerRelay._checkConnection, hoff, PeerRelay.isConnected,
      hconn, createOffer_ready r env hoff hpc hdc]
  refine ⟨h, ?_⟩
  rw [h]
  simp [Except.map, pendingAfter]

/-- When the timer fires on a connected offerer whose keepalive state is cleared and that has a
data channel, the tick only sends a PING and `OnMessage` rearms the timer once: with no other
firing pending before, exactly one is pending afterwards, due one interval later. -/
theorem OnMessage_rearm (r : PeerRelay) (env : Env) (now : Int)
    (hcallback : r._offererConnectionCheckTimer._callback = true)
    (hoff : r._isOfferer = true) (hconn : r._isConnected = true)
    (hsent : r._lastSentPingTime = none) (hdc : r._dataChannel.isSome = true) :
    Except.map (fun out => pendingAfter now [] out.2) (Timer.OnMessage r env) =
      Except.ok [now + r._offererConnectionCheckTimer._interval] := by
  simp [Timer.OnMessage, hcallback, PeerRelay._checkConnection, hoff, PeerRelay.isConnected,
    hconn, hsent, hdc, Except.map, pendingAfter]

/-- C15 at the failing input: the timer of an offerer that is not connected (interval 10000,
nothing else pending) fires at thread time 10100. Two firings are pending afterwards, both due
at 20100, where the claim has exactly one; on the connected offerer, whose tick does not
restart the timer, one is pending. -/
theorem OnMessage_restart_two_pending :
    Except.map (fun out => pendingAfter 10100 [] out.2)
        (Timer.OnMessage (sampleRelay true false true) (envAt 200)) =
      Except.ok [20100, 20100] ∧
    Except.map (fun out => pendingAfter 10100 [] out.2)
        (Timer.OnMessage (sampleRelay true true true) (envAt 200)) =
      Except.ok [20100] := by
  decide

/-! ## Construction without a peer connection -/

/-- When `CreatePeerConnection` hands out nothing, the constructor of an offerer does not
return: its `_createOffer` calls `CreateDataChannel` through the null `_peerConnection`. -/
theorem construct_offerer_without_peerConnection (decl : Declared) (options : Options)
    (callbacks : Callbacks) (cenv : ConstructionEnv) (hoff : options.isOfferer = true)
    (hsocket : cenv.socketCreated = true) (hpc : cenv.peerConnectionCreated = false) :
    PeerRelay.construct decl options callbacks cenv = Except.error Fault.nullDereference := by
  simp [PeerRelay.construct, PeerRelay._createOffer, hoff, hsocket, hpc]

/-- C17 at the failing input: the constructor of the offerer for player 42 (alice), game port
6112, when the local socket is created and bound and `CreatePeerConnection` returns null. It
ends in a null dereference; the same options for an answerer construct a relay. -/
theorem construct_offerer_null_dereference :
    PeerRelay.construct sampleDeclared
        { iceServers := [], remotePlayerId := 42, remotePlayerLogin := "alice",
          isOfferer := true, gameUdpPort := 6112 }
        { stateCallback := true, connectedCallback := true }
        { socketCreated := true, bindResult := 0, localPort := 50000,
          peerConnectionCreated := false, env := envAt 100 } =
      Except.error Fault.nullDereference ∧
    Except.map (fun out => out.1._peerConnection)
        (PeerRelay.construct sampleDeclared
          { iceServers := [], remotePlayerId := 42, remotePlayerLogin := "alice",
            isOfferer := false, gameUdpPort := 6112 }
          { stateCallback := true, connectedCallback := true }
          { socketCreated := true, bindResult := 0, localPort := 50000,
            peerConnectionCreated := false, env := envAt 100 }) =
      Except.ok none := by
  decide


/-! ## The order of the keepalive times -/

/-- Keepalive times that are in order at one clock reading are in order at every later one. -/
theorem keepaliveOrdered_mono (r : PeerRelay) (t t2 : Int) (h : r.keepaliveOrdered t = true)
    (hle : t ≤ t2) : r.keepaliveOrdered t2 = true := by
  unfold PeerRelay.keepaliveOrdered at h ⊢
  rcases Option.eq_none_or_eq_some r._lastSentPingTime with hs | ⟨s, hs⟩
  · simp [hs]
  · rcases Option.eq_none_or_eq_some r._lastReceivedPongTime with hp | ⟨p, hp⟩
    · simp only [hs, hp, decide_eq_true_eq] at h ⊢
      omega
    · simp only [hs, hp, Bool.and_eq_true, decide_eq_true_eq] at h ⊢
      exact ⟨by omega, h.2⟩

/-- Whether the keepalive times are in order depends on the two times only. -/
theorem keepaliveOrdered_congr (a b : PeerRelay) (t : Int)
    (hs : a._lastSentPingTime = b._lastSentPingTime)
    (hp : a._lastReceivedPongTime = b._lastReceivedPongTime) :
    a.keepaliveOrdered t = b.keepaliveOrdered t := by
  unfold PeerRelay.keepaliveOrdered
  rw [hs, hp]

/-- A datagram from the game leaves the relay as it was. -/
theorem onPeerdataFromGame_relay (r : PeerRelay) (socket : AsyncSocket) :
    (r._onPeerdataFromGame socket).1 = r := by
  simp only [PeerRelay._onPeerdataFromGame]
  split
  · rfl
  · split <;> rfl

/-- Every handler that returns keeps the keepalive times in order, when the clock has not gone
back. -/
theorem handle_keepaliveOrdered (r : PeerRelay) (env : Env) (ev : Event)
    (out : PeerRelay × List Effect) (t : Int) (h : r.handle env ev = Except.ok out)
    (hord : r.keepaliveOrdered t = true) (hle : t ≤ env.now) :
    out.1.keepaliveOrdered env.now = true := by
  have hnow := keepaliveOrdered_mono r t env.now hord hle
  cases ev with
  | iceState state =>
    simp only [PeerRelay.handle] at h
    rcases Bool.eq_false_or_eq_true r._closing with hclosing | hclosing
    · rw [setIceState_closing r env state hclosing] at h
      cases h
      exact (keepaliveOrdered_congr _ r env.now rfl rfl).trans hnow
    · obtain ⟨dc, tm, heq, _⟩ := setIceState_frame r env state out hclosing h
      rw [heq, setConnected_relay]
      split
      · exact (keepaliveOrdered_congr _ r env.now rfl rfl).trans hnow
      · split
        · rfl
        · exact (keepaliveOrdered_congr _ r env.now rfl rfl).trans hnow
  | checkConnection =>
    simp only [PeerRelay.handle] at h
    obtain ⟨dc, tm, heq, _⟩ := checkConnection_frame r env out h
    rw [heq]
    rcases Bool.eq_false_or_eq_true (r._isOfferer && r._isConnected && dc.isSome) with hc | hc
    · simp [PeerRelay.keepaliveOrdered, hc]
    · refine (keepaliveOrdered_congr _ r env.now ?_ ?_).trans hnow <;> simp [hc]
  | remoteMessage data =>
    simp only [PeerRelay.handle] at h
    cases h
    unfold PeerRelay._onRemoteMessage
    split
    · unfold PeerRelay.keepaliveOrdered at hnow ⊢
      rcases Option.eq_none_or_eq_some r._lastSentPingTime with hs | ⟨s, hs⟩
      · simp [hs]
      · rcases Option.eq_none_or_eq_some r._lastReceivedPongTime with hp | ⟨p, hp⟩
        · simp only [hs, hp, decide_eq_true_eq] at hnow
          simp [hs, hnow]
        · simp only [hs, hp, Bool.and_eq_true, decide_eq_true_eq] at hnow
          simp [hs, hnow.1]
    · split
      · exact hnow
      · split <;> exact hnow
  | peerdataFromGame socket =>
    simp only [PeerRelay.handle] at h
    cases h
    rw [onPeerdataFromGame_relay]
    exact hnow

/-- Every run that returns under a clock that does not go back keeps the keepalive times in
order. -/
theorem run_keepaliveOrdered : ∀ (events : List (Env × Event)) (r : PeerRelay) (t : Int)
    (out : PeerRelay × List Effect), r.run events = Except.ok out →
    r.keepaliveOrdered t = true → clockNonDecreasing t events = true →
    ∃ t2, out.1.keepaliveOrdered t2 = true
  | [], r, t, out, h, hord, _ => by
    cases h
    exact ⟨t, hord⟩
  | (env, ev) :: rest, r, t, out, h, hord, hclock => by
    simp only [clockNonDecreasing, Bool.and_eq_true, decide_eq_true_eq] at hclock
    simp only [PeerRelay.run] at h
    cases h1 : r.handle env ev with
    | error f => rw [h1] at h; cases h
    | ok out1 =>
      obtain ⟨r1, e1⟩ := out1
      rw [h1] at h
      simp only at h
      cases h2 : r1.run rest with
      | error f => rw [h2] at h; cases h
      | ok out2 =>
        obtain ⟨r2, e2⟩ := out2
        rw [h2] at h
        cases h
        exact run_keepaliveOrdered rest r1 env.now (r2, e2) h2
          (handle_keepaliveOrdered r env ev (r1, e1) t h1 hord hclock.1) hclock.2


/-- Whenever the constructor returns, no ping or pong time is recorded and no missed ping is
counted. -/
theorem construct_keepalive (decl : Declared) (options : Options) (callbacks : Callbacks)
    (cenv : ConstructionEnv) (out : PeerRelay × List Effect)
    (h : PeerRelay.construct decl options callbacks cenv = Except.ok out) :
    out.1._lastSentPingTime = none ∧ out.1._lastReceivedPongTime = none ∧
    out.1._missedPings = 0 := by
  rcases Bool.eq_false_or_eq_true cenv.socketCreated with hs | hs <;>
  rcases Bool.eq_false_or_eq_true options.isOfferer with ho | ho <;>
  rcases Bool.eq_false_or_eq_true cenv.peerConnectionCreated with hp | hp <;>
  rcases Bool.eq_false_or_eq_true cenv.env.dataChannelCreated with hd | hd <;>
  simp [PeerRelay.construct, PeerRelay._createOffer, Timer.start, Timer.stop, hs, ho, hp, hd]
    at h <;>
  subst h <;>
  simp

/-- When a recorded pong time is not earlier than the recorded ping time, the 15-second rule
does nothing: its guard is false. -/
theorem noPongRule_quiet (r : PeerRelay) (env : Env)
    (hord : ∀ s p, r._lastSentPingTime = some s → r._lastReceivedPongTime = some p → s ≤ p) :
    (r._lastSentPingTime.isSome && r._lastReceivedPongTime.isSome &&
      PeerRelay.optionalGreater r._lastSentPingTime r._lastReceivedPongTime) = false ∧
    r.noPongRule env = Except.ok (r, []) := by
  have hguard : (r._lastSentPingTime.isSome && r._lastReceivedPongTime.isSome &&
      PeerRelay.optionalGreater r._lastSentPingTime r._lastReceivedPongTime) = false := by
    rcases Option.eq_none_or_eq_some r._lastSentPingTime with hs | ⟨s, hs⟩
    · simp [hs]
    · rcases Option.eq_none_or_eq_some r._lastReceivedPongTime with hp | ⟨p, hp⟩
      · simp [hs, hp]
      · have := hord s p hs hp
        simp only [hs, hp, Option.isSome_some, Bool.and_self, Bool.true_and,
          PeerRelay.optionalGreater, decide_eq_false_iff_not]
        omega
  refine ⟨hguard, ?_⟩
  unfold PeerRelay.noPongRule
  rw [hguard]
  rfl

/-- C18. In every state reached from construction through ICE state reports, liveness ticks,
inbound messages and game datagrams under a clock that does not go back: whenever both
`_lastSentPingTime` and `_lastReceivedPongTime` are present, the pong time is not earlier than
the ping time; hence the guard of the tick's 15-second rule is false there, and the rule returns
the relay as it is without a call, so it invokes no offer creation, also where a tick runs it,
after the missed-ping rule. -/
theorem keepalive_pong_not_before_ping (decl : Declared) (options : Options)
    (callbacks : Callbacks) (cenv : ConstructionEnv) (events : List (Env × Event))
    (out : PeerRelay × List Effect)
    (hclock : clockNonDecreasing cenv.env.now events = true)
    (h : PeerRelay.life decl options callbacks cenv events = Except.ok out) :
    (∀ s p, out.1._lastSentPingTime = some s → out.1._lastReceivedPongTime = some p → s ≤ p) ∧
    (out.1._lastSentPingTime.isSome && out.1._lastReceivedPongTime.isSome &&
      PeerRelay.optionalGreater out.1._lastSentPingTime out.1._lastReceivedPongTime) = false ∧
    (∀ env, out.1.noPongRule env = Except.ok (out.1, [])) ∧
    ∀ env r2 e2, out.1.missedPingRule env = Except.ok (r2, e2) →
      r2.noPongRule env = Except.ok (r2, []) := by
  have hord : ∀ s p, out.1._lastSentPingTime = some s →
      out.1._lastReceivedPongTime = some p → s ≤ p := by
    unfold PeerRelay.life at h
    cases hc : PeerRelay.construct decl options callbacks cenv with
    | error f => rw [hc] at h; cases h
    | ok out0 =>
      obtain ⟨r0, e0⟩ := out0
      rw [hc] at h
      simp only at h
      cases hr : r0.run events with
      | error f => rw [hr] at h; cases h
      | ok out1 =>
        obtain ⟨r1, e1⟩ := out1
        rw [hr] at h
        cases h
        have h0 : r0.keepaliveOrdered cenv.env.now = true := by
          have := (construct_keepalive decl options callbacks cenv _ hc).1
          simp only at this
          simp [PeerRelay.keepaliveOrdered, this]
        obtain ⟨t2, ht2⟩ := run_keepaliveOrdered events r0 cenv.env.now (r1, e1) hr h0 hclock
        intro s p hs hp
        simp only at hs hp
        simp only [PeerRelay.keepaliveOrdered, hs, hp, Bool.and_eq_true, decide_eq_true_eq]
          at ht2
        exact ht2.2
  refine ⟨hord, (noPongRule_quiet out.1 (envAt 0) hord).1,
    fun env => (noPongRule_quiet out.1 env hord).2, ?_⟩
  intro env r2 e2 hmiss
  obtain ⟨dc, tm, heq, _⟩ := missedPingRule_frame out.1 env (r2, e2) hmiss
  simp only at heq
  refine (noPongRule_quiet r2 env ?_).2
  rw [heq]
  exact hord

/-- C18 on the offerer constructed at clock 100 that is told `connected` at 105, ticked at 110
and receives a PONG at 112: both times are present, 110 and 112, and the 15-second rule does
nothing on the next tick. -/
theorem keepalive_pong_not_before_ping_witness :
    ∃ out, PeerRelay.life sampleDeclared
        { iceServers := [], remotePlayerId := 42, remotePlayerLogin := "alice",
          isOfferer := true, gameUdpPort := 6112 }
        { stateCallback := true, connectedCallback := true }
        { socketCreated := true, bindResult := 0, localPort := 50000,
          peerConnectionCreated := true, env := envAt 100 }
        [(envAt 105, Event.iceState "connected"), (envAt 110, Event.checkConnection),
          (envAt 112, Event.remoteMessage PongMessage)] = Except.ok out ∧
      out.1._lastSentPingTime = some 110 ∧ out.1._lastReceivedPongTime = some 112 ∧
      out.1.noPongRule (envAt 120) = Except.ok (out.1, []) :=
  ⟨({ sampleRelay true true true with
        _connectDuration := 5, _iceState := "connected", _lastSentPingTime := some 110,
        _lastReceivedPongTime := some 112 },
      [Effect.socketBind { host := "127.0.0.1", port := 0 }, Effect.log LogLevel.info,
        Effect.createPeerConnection [],
        Effect.createDataChannel "faf" { ordered := false, maxRetransmits := 0 },
        Effect.registerObserver,
        Effect.createOffer
          { offer_to_receive_audio := 0, offer_to_receive_video := 0, ice_restart := false },
        Effect.threadClear, Effect.threadClear, Effect.threadPostDelayed 10000,
        Effect.log LogLevel.debug, Effect.connectedCallback true, Effect.log LogLevel.info,
        Effect.getStats, Effect.stateCallback "connected",
        Effect.dataChannelSend PingMessage true]),
    by decide, rfl, rfl,
    (keepalive_pong_not_before_ping sampleDeclared
        { iceServers := [], remotePlayerId := 42, remotePlayerLogin := "alice",
          isOfferer := true, gameUdpPort := 6112 }
        { stateCallback := true, connectedCallback := true }
        { socketCreated := true, bindResult := 0, localPort := 50000,
          peerConnectionCreated := true, env := envAt 100 }
        [(envAt 105, Event.iceState "connected"), (envAt 110, Event.checkConnection),
          (envAt 112, Event.remoteMessage PongMessage)] _ (by decide) (by decide)).2.2.1
      (envAt 120)⟩


/-! ## The counter of missed pings -/

/-- An inbound message, a PONG included, leaves the counter of missed pings and the connected
flag as they were. -/
theorem onRemoteMessage_missedPings (r : PeerRelay) (env : Env) (data : List Byte) :
    (r._onRemoteMessage env data).1._missedPings = r._missedPings ∧
    (r._onRemoteMessage env data).1._isConnected = r._isConnected := by
  simp only [PeerRelay._onRemoteMessage]
  split
  · exact ⟨rfl, rfl⟩
  · split
    · exact ⟨rfl, rfl⟩
    · split <;> exact ⟨rfl, rfl⟩

/-- Whenever a handler returns, either it has taken the connected flag from false to true or
the counter of missed pings has not gone down. -/
theorem handle_missedPings (r : PeerRelay) (env : Env) (ev : Event)
    (out : PeerRelay × List Effect) (h : r.handle env ev = Except.ok out) :
    (r._isConnected = false ∧ out.1._isConnected = true) ∨
      r._missedPings ≤ out.1._missedPings := by
  cases ev with
  | iceState state =>
    simp only [PeerRelay.handle] at h
    rcases Bool.eq_false_or_eq_true r._closing with hclosing | hclosing
    · rw [setIceState_closing r env state hclosing] at h
      cases h
      exact Or.inr (Nat.le_refl _)
    · obtain ⟨dc, tm, heq, _⟩ := setIceState_frame r env state out hclosing h
      rw [heq, setConnected_relay]
      rcases Bool.eq_false_or_eq_true (state == "connected" || state == "completed")
        with hc | hc <;>
      rcases Bool.eq_false_or_eq_true r._isConnected with hconn | hconn <;>
      simp [hc, hconn]
  | checkConnection =>
    simp only [PeerRelay.handle] at h
    obtain ⟨dc, tm, heq, _⟩ := checkConnection_frame r env out h
    right
    rw [heq]
    simp only
    split <;> omega
  | remoteMessage data =>
    simp only [PeerRelay.handle] at h
    cases h
    exact Or.inr (Nat.le_of_eq (onRemoteMessage_missedPings r env data).1.symm)
  | peerdataFromGame socket =>
    simp only [PeerRelay.handle] at h
    cases h
    right
    rw [onPeerdataFromGame_relay]

/-- Whenever a tick returns at a state in which the missed-ping rule invokes offer creation, it
leaves the counter of missed pings at 2. -/
theorem checkConnection_missedPingRestart (r : PeerRelay) (env : Env)
    (out : PeerRelay × List Effect) (h : r._checkConnection env = Except.ok out)
    (hfire : r.missedPingRestart = true) : out.1._missedPings = 2 := by
  obtain ⟨dc, tm, heq, _⟩ := checkConnection_frame r env out h
  simp only [PeerRelay.missedPingRestart, PeerRelay.isConnected, Bool.and_eq_true,
    beq_iff_eq] at hfire
  obtain ⟨⟨⟨⟨h1, h2⟩, h3⟩, h4⟩, h5⟩ := hfire
  rw [heq]
  simp [h1, h2, h3, h4, h5]

/-- In a run without a false-to-true transition of the connected flag, the missed-ping rule
invokes offer creation on at most one tick, on none when two missed pings are already counted,
and the counter of missed pings never goes down. -/
theorem run_missedPings : ∀ (events : List (Env × Event)) (r : PeerRelay),
    r.noConnectTransition events = true →
    r.missedPingRestarts events ≤ 1 ∧
    (2 ≤ r._missedPings → r.missedPingRestarts events = 0) ∧
    (∀ out, r.run events = Except.ok out → r._missedPings ≤ out.1._missedPings)
  | [], r, _ => ⟨Nat.zero_le _, fun _ => rfl, fun out h => by cases h; exact Nat.le_refl _⟩
  | (env, ev) :: rest, r, hrun => by
    have hquiet : 2 ≤ r._missedPings →
        (if ev = Event.checkConnection ∧ r.missedPingRestart = true then 1 else 0) = 0 := by
      intro h2
      rw [if_neg]
      rintro ⟨_, hfire⟩
      simp only [PeerRelay.missedPingRestart, Bool.and_eq_true, beq_iff_eq] at hfire
      omega
    simp only [PeerRelay.missedPingRestarts, PeerRelay.run]
    cases h1 : r.handle env ev with
    | error f =>
      refine ⟨?_, fun h2 => ?_, fun out h => by cases h⟩
      · simp only [Nat.add_zero]
        split <;> omega
      · simp only [Nat.add_zero]
        exact hquiet h2
    | ok out1 =>
      obtain ⟨r1, e1⟩ := out1
      simp only [PeerRelay.noConnectTransition, h1, Bool.and_eq_true, Bool.not_eq_true',
        Bool.and_eq_false_iff, Bool.not_eq_false'] at hrun
      obtain ⟨hno, hrest⟩ := hrun
      have hle : r._missedPings ≤ r1._missedPings := by
        rcases handle_missedPings r env ev (r1, e1) h1 with ⟨hf, ht⟩ | hle
        · rcases hno with hno | hno
          · rw [hf] at hno; cases hno
          · simp only at ht
            rw [ht] at hno; cases hno
        · exact hle
      obtain ⟨ih1, ih2, ih3⟩ := run_missedPings rest r1 hrest
      dsimp only
      refine ⟨?_, fun h2 => ?_, fun out h => ?_⟩
      · by_cases hfire : ev = Event.checkConnection ∧ r.missedPingRestart = true
        · rw [if_pos hfire]
          obtain ⟨hev, hf⟩ := hfire
          subst hev
          have h2 : r1._missedPings = 2 :=
            checkConnection_missedPingRestart r env (r1, e1) h1 hf
          rw [ih2 (by omega)]
        · rw [if_neg hfire]
          omega
      · rw [hquiet h2, ih2 (by omega)]
      · cases h2 : r1.run rest with
        | error f => rw [h2] at h; cases h
        | ok out2 =>
          obtain ⟨r2, e2⟩ := out2
          rw [h2] at h
          cases h
          exact Nat.le_trans hle (ih3 (r2, e2) h2)


/-- On a connected offerer the missed-ping rule, whenever it returns, has issued `CreateOffer`
exactly in the states `missedPingRestart` describes: a ping was sent, no pong has been received,
and this missed ping is the second. -/
theorem missedPingRule_restart (r : PeerRelay) (env : Env) (out : PeerRelay × List Effect)
    (hoff : r._isOfferer = true) (hconn : r.isConnected = true)
    (h : r.missedPingRule env = Except.ok out) :
    out.2.any Effect.isCreateOffer = r.missedPingRestart := by
  unfold PeerRelay.missedPingRule at h
  rcases Bool.eq_false_or_eq_true (r._lastSentPingTime.isSome &&
    !r._lastReceivedPongTime.isSome) with hcond | hcond
  · rw [if_pos hcond] at h
    dsimp only at h
    rcases Bool.eq_false_or_eq_true (r._missedPings + 1 == 2) with hsecond | hsecond
    · rw [if_pos hsecond] at h
      cases hco : ({ r with _missedPings := r._missedPings + 1 } : PeerRelay)._createOffer env with
      | error f => rw [hco] at h; cases h
      | ok out2 =>
        obtain ⟨r2, e2⟩ := out2
        rw [hco] at h
        cases h
        have hcount := (createOffer_effects
          ({ r with _missedPings := r._missedPings + 1 } : PeerRelay) env (r2, e2) hoff hco).1
        have hfire : r.missedPingRestart = true := by
          simp only [PeerRelay.missedPingRestart, hoff, hconn, Bool.true_and, Bool.and_assoc]
          rw [← Bool.and_assoc, hcond, hsecond]
          rfl
        rw [hfire]
        obtain ⟨x, hx, hpx⟩ := List.countP_pos_iff.mp (by rw [hcount]; exact Nat.one_pos)
        exact List.any_eq_true.mpr ⟨x, by simp [hx], hpx⟩
    · rw [hsecond] at h
      cases h
      simp only [PeerRelay.missedPingRestart, hsecond, Bool.and_false]
      rfl
  · rw [hcond] at h
    cases h
    have hfire : r.missedPingRestart = false := by
      simp only [PeerRelay.missedPingRestart, hoff, hconn, Bool.true_and, Bool.and_assoc]
      rw [← Bool.and_assoc, hcond, Bool.false_and]
    rw [hfire]
    rfl

/-- C19. For every run of a relay without a false-to-true transition of the connected flag:
the counter of missed pings never goes down, and an inbound message, a PONG included, leaves it
as it is; the missed-ping rule invokes offer creation on at most one tick of the run, and on
none once two missed pings are counted. That tick is the one on which the count reaches exactly
2: on a connected offerer the rule issues `CreateOffer` exactly when a ping was sent, no pong
has been received and the counter stands at 1, and the tick then leaves it at 2. -/
theorem missedPings_restart_once (r : PeerRelay) (events : List (Env × Event))
    (hrun : r.noConnectTransition events = true) :
    r.missedPingRestarts events ≤ 1 ∧
    (2 ≤ r._missedPings → r.missedPingRestarts events = 0) ∧
    (∀ out, r.run events = Except.ok out → r._missedPings ≤ out.1._missedPings) ∧
    (∀ env data, (r._onRemoteMessage env data).1._missedPings = r._missedPings) ∧
    (∀ env out, r._isOfferer = true → r.isConnected = true →
      r.missedPingRule env = Except.ok out →
      out.2.any Effect.isCreateOffer = r.missedPingRestart) ∧
    (∀ env out, r._checkConnection env = Except.ok out → r.missedPingRestart = true →
      out.1._missedPings = 2) := by
  obtain ⟨h1, h2, h3⟩ := run_missedPings events r hrun
  exact ⟨h1, h2, h3, fun env data => (onRemoteMessage_missedPings r env data).1,
    fun env out hoff hconn h => missedPingRule_restart r env out hoff hconn h,
    fun env out h hfire => checkConnection_missedPingRestart r env out h hfire⟩

/-- C19 on a connected offerer with its keepalive state cleared that is ticked five times, with
a PONG after the second tick: the rule invokes offer creation on at most one tick, and the
counter has not gone down at the end. -/
theorem missedPings_restart_once_witness :
    (sampleRelay true true true).missedPingRestarts
        [(envAt 200, Event.checkConnection), (envAt 300, Event.checkConnection),
          (envAt 310, Event.remoteMessage PongMessage), (envAt 400, Event.checkConnection),
          (envAt 500, Event.checkConnection), (envAt 600, Event.checkConnection)] ≤ 1 :=
  (missedPings_restart_once (sampleRelay true true true)
    [(envAt 200, Event.checkConnection), (envAt 300, Event.checkConnection),
      (envAt 310, Event.remoteMessage PongMessage), (envAt 400, Event.checkConnection),
      (envAt 500, Event.checkConnection), (envAt 600, Event.checkConnection)] (by decide)).1


/-! ## The closing flag -/

/-- The tick itself does not consult the closing flag: called on a relay record in which the
flag is set, it acts as on any other offerer. The code never makes this call: the flag is set by
the destructor only, and the tick is the callback of the timer that the destruction stops. -/
theorem checkConnection_ignores_closing :
    ({ sampleRelay true false true with _closing := true } : PeerRelay)._checkConnection
        (envAt 200) =
      Except.ok ({ sampleRelay true false true with _closing := true },
        [Effect.log LogLevel.info,
          Effect.createOffer
            { offer_to_receive_audio := 0, offer_to_receive_video := 0, ice_restart := true },
          Effect.threadClear, Effect.threadClear, Effect.threadPostDelayed 10000]) := by
  decide

/-- The destruction of the witness, call by call: the observer is unregistered, the PING frame
delivered meanwhile goes to the game (the relay is the offerer), the peer connection is closed,
the report of `closed` delivered meanwhile is only logged, and the timer is stopped. -/
theorem destroy_sample :
    (sampleRelay true true true).destroy
        [(envAt 900, ObserverEvent.remoteMessage PingMessage)]
        [(envAt 901, ObserverEvent.iceState "closed")] =
      Except.ok ({ sampleRelay true true true with
          _closing := true, _dataChannel := none, _peerConnection := none,
          _iceState := "closed",
          _offererConnectionCheckTimer := { _interval := 10000, _callback := false } },
        [Effect.unregisterObserver,
          Effect.udpSendTo PingMessage { host := "127.0.0.1", port := 6112 },
          Effect.peerConnectionClose, Effect.log LogLevel.debug, Effect.threadClear]) := by
  decide

end faf
